import Mathlib

/-! # Swipe / match transaction of the muzz backend

A shallow embedding of `internal/db/swipe.go` (`PostgresStore.Swipe`,
`PostgresStore.getSwipeProfiles`), of the tables of `internal/db/schema.go`
that it reads and writes, of the part of `swipeHandler` (`internal/server/server.go`) that
builds the response, of `writeErrorResponse` (same file) with the error values of
`internal/server/error.go` and `internal/db/error.go`, and of `sortProfilesByLocation`
(`internal/server/filter-utils.go`).

* Profile and match ids are `Int` (Go `int32` / `int`; no arithmetic is done on them).
* Go slices are `List Int`; the helpers of package `slices` are modelled with the
  results they have in Go, including the in-place effect of `slices.Delete` on the
  slice the caller keeps.
* The database is a value of type `Store`; a transaction is a staged copy of it.
  Failures of database calls are an explicit input (`Faults`).
* A Go run-time panic (index out of range) is the result `none`.
* Two concurrent calls are modelled at the granularity of the source: the read of the two
  ledgers (`swipeRead`), which is not part of the transaction, and the transaction
  (`swipeWith`), which runs on the store as it is when the transaction begins.
* `getDistanceInKm` is floating-point arithmetic and is a parameter of
  `sortProfilesByLocation`.
* `slices.Delete` zeroes the slots it vacates from Go 1.22 on and leaves them as they were in
  Go 1.21. The repository imports `math/rand/v2` and registers routes with method patterns,
  both of which need Go 1.22, so the zeroing behaviour (`clearTail = true`) is the one that
  applies; the results below are nevertheless stated for both.
-/

namespace Muzz

/-! ## Errors (`internal/db/error.go`) -/

/-- The error values declared in `internal/db/error.go`. -/
inductive DbError where
  | ErrQueryTimedOut
  | ErrDatabaseError
  | ErrSwipeRequestInvalid
  | ErrNoValidSession
  | ErrLoginFailed
  deriving DecidableEq, Repr

/-! ## Data model -/

/-- The Go struct `SwipeDetails`: the columns `id, swipedOn, swipedYesBy` of a row of table
`profiles` (the other columns are never read or written by the swipe code). -/
structure SwipeDetails where
  Id : Int
  SwipedOn : List Int
  SwipedYesBy : List Int
  deriving DecidableEq, Repr

/-- A row of table `matches` (`id, user1Id, user2Id`; the timestamp is not modelled). -/
structure MatchRow where
  id : Int
  user1Id : Int
  user2Id : Int
  deriving DecidableEq, Repr

/-- The committed database state: the rows of `profiles`, the rows of `matches` (field
`matchRows`), and the
last value handed out by the identity sequence of `matches.id` (the sequence starts at 1, so
the next id is `matchSeq + 1`). -/
structure Store where
  profiles : List SwipeDetails
  matchRows : List MatchRow
  matchSeq : Nat
  deriving DecidableEq, Repr

/-- The first row of `profiles` with the given id, if any. -/
def Store.lookup (st : Store) (id : Int) : Option SwipeDetails :=
  st.profiles.find? (fun p => p.Id == id)

/-! ## Package `slices` -/

/-- Go indexing `s[i]` with a signed index: `none` models the out-of-range panic. -/
def goIndex {α : Type} (s : List α) (i : Int) : Option α :=
  if i < 0 then none else s[i.toNat]?

/-- Go `slices.IndexFunc`: the index of the first element satisfying `f`, or `-1`. -/
def slicesIndexFunc {α : Type} (s : List α) (f : α → Bool) : Int :=
  if s.findIdx f < s.length then (s.findIdx f : Int) else -1

/-- Go `slices.Index`: the index of the first occurrence of `v`, or `-1`. -/
def slicesIndex (s : List Int) (v : Int) : Int :=
  slicesIndexFunc s (fun x => v == x)

/-- Go `slices.Contains`, which is `Index(s, v) >= 0`. -/
def slicesContains (s : List Int) (v : Int) : Bool :=
  decide (slicesIndex s v ≥ 0)

/-- Go `slices.Delete(s, i, j)`. The result is `none` when the bounds check panics; otherwise the
first component is the slice that `Delete` returns and the second component is what the
caller's own slice `s` (same backing array, old length) holds afterwards: the kept elements
shifted left, followed by `j - i` obsolete slots. Those slots are zeroed by Go 1.22 and later
(`clearTail = true`) and keep their old contents in Go 1.21 (`clearTail = false`). -/
def slicesDelete (clearTail : Bool) (s : List Int) (i j : Int) : Option (List Int × List Int) :=
  if 0 ≤ i ∧ i ≤ j ∧ j ≤ (s.length : Int) then
    let kept := s.take i.toNat ++ s.drop j.toNat
    let tail := if clearTail then List.replicate (j.toNat - i.toNat) 0
                else s.drop (s.length - (j.toNat - i.toNat))
    some (kept, kept ++ tail)
  else none

/-! ## Database calls -/

/-- Why a database call failed. -/
inductive Failure where
  | deadlineExceeded
  | other
  deriving DecidableEq, Repr

/-- How the reading of the rows of the ledger query fails, once `QueryEx` has returned
without error. Either `r.Scan` (in `scanSwipeRows`) returns an error on the first row it is
given, or `rows.Next()` stops on an error before the second row is delivered, with or without
the first row read: `rows.Next()` then returns `false` like at the end of the rows, and
`getSwipeProfiles` never calls `rows.Err()`. -/
inductive RowFailure where
  | scan (cause : Failure)
  | next (cause : Failure) (firstRowRead : Bool)
  deriving DecidableEq, Repr

/-- Which of the database calls of one `Swipe` invocation fail (`none`: the call succeeds).
Field `scan` is the reading of the rows of the ledger query, by `rows.Next()` and `Scan`. -/
structure Faults where
  query : Option Failure
  scan : Option RowFailure
  begin : Option Failure
  updateSwiper : Option Failure
  updateSwiped : Option Failure
  insertMatch : Option Failure
  commit : Option Failure
  deriving DecidableEq, Repr

/-- No database call fails. -/
def Faults.none : Faults :=
  ⟨Option.none, Option.none, Option.none, Option.none, Option.none, Option.none, Option.none⟩

/-- The calls made on the connection pool and on the transaction, in order. -/
inductive TxEvent where
  | query
  | begin
  | exec
  | queryRow
  | commit
  | rollback
  deriving DecidableEq, Repr

/-- The three `UPDATE profiles ...` statements of `Swipe`. -/
inductive Statement where
  | updateLedger (swipedYesBy swipedOn : List Int) (id : Int)
  | updateSwipedOn (swipedOn : List Int) (id : Int)
  | updateSwipedYesBy (swipedYesBy : List Int) (id : Int)
  deriving DecidableEq, Repr

/-- Effect of an `UPDATE profiles SET ... WHERE id = $n` on one row of `profiles`. -/
def Statement.onRow : Statement → SwipeDetails → SwipeDetails
  | .updateLedger swipedYesBy swipedOn id, p =>
      if p.Id = id then { p with SwipedYesBy := swipedYesBy, SwipedOn := swipedOn } else p
  | .updateSwipedOn swipedOn id, p =>
      if p.Id = id then { p with SwipedOn := swipedOn } else p
  | .updateSwipedYesBy swipedYesBy id, p =>
      if p.Id = id then { p with SwipedYesBy := swipedYesBy } else p

/-- Effect of an `UPDATE profiles SET ... WHERE id = $n` on the rows of `profiles`. -/
def Statement.apply (stmt : Statement) (rows : List SwipeDetails) : List SwipeDetails :=
  rows.map stmt.onRow

/-- An open transaction: the database as the transaction sees it, and whether a statement has
failed in it (PostgreSQL then rejects every later statement and turns `COMMIT` into a
rollback). -/
structure Tx where
  view : Store
  failed : Bool
  deriving DecidableEq, Repr

/-- Transaction method `ExecEx` with one of the `UPDATE` statements. `Swipe` discards its result. -/
def Tx.ExecEx (tx : Tx) (fault : Option Failure) (stmt : Statement) : Tx :=
  if tx.failed || fault.isSome then { tx with failed := true }
  else { tx with view := { tx.view with profiles := stmt.apply tx.view.profiles } }

/-- Transaction method `QueryRowEx` with `INSERT INTO matches (user1Id, user2Id) VALUES ($1, $2)
RETURNING id`, followed by `match.scanRow`: the generated id, or `none` when the scan reports
an error. -/
def Tx.insertMatch (tx : Tx) (fault : Option Failure) (user1Id user2Id : Int) : Tx × Option Int :=
  if tx.failed || fault.isSome then ({ tx with failed := true }, Option.none)
  else
    let id : Int := ((tx.view.matchSeq + 1 : Nat) : Int)
    ({ tx with view := { tx.view with
          matchRows := tx.view.matchRows ++ [⟨id, user1Id, user2Id⟩],
          matchSeq := tx.view.matchSeq + 1 } }, some id)

/-- Transaction method `CommitEx`, giving the committed database: the view of the
transaction when the commit succeeds, the state before the transaction otherwise (the sequence
of match ids is not transactional and keeps the values it handed out). -/
def Tx.CommitEx (tx : Tx) (fault : Option Failure) (before : Store) : Store :=
  if tx.failed || fault.isSome then { before with matchSeq := tx.view.matchSeq }
  else tx.view

/-! ## `getSwipeProfiles` and `Swipe` -/

/-- The Go function `getSwipeProfiles`: `SELECT id, swipedOn, swipedYesBy FROM profiles WHERE id in
($1, $2)`, an error of `QueryEx` or of `Scan` mapped to `ErrDatabaseError`, and fewer than two
rows rejected. When `rows.Next()` stops on an error the loop just ends, with the rows read so
far, and the error is never looked at. -/
def getSwipeProfiles (f : Faults) (st : Store) (userId1 userId2 : Int) :
    Except DbError (List SwipeDetails) :=
  if f.query.isSome then .error .ErrDatabaseError
  else
    let rows := st.profiles.filter (fun p => p.Id == userId1 || p.Id == userId2)
    match f.scan with
    | some (.scan _) =>
      if !rows.isEmpty then .error .ErrDatabaseError
      else .error .ErrSwipeRequestInvalid
    | some (.next _ firstRowRead) =>
      let profiles := if firstRowRead then rows.take 1 else []
      if profiles.length < 2 then .error .ErrSwipeRequestInvalid
      else .ok profiles
    | Option.none =>
      if rows.length < 2 then .error .ErrSwipeRequestInvalid
      else .ok rows

/-- What one call of `Swipe` returns (`matched`, `matchId`, `err`) together with the committed
database after the call and the database calls it made. -/
structure SwipeOutcome where
  matched : Bool
  matchId : Int
  err : Option DbError
  store : Store
  trace : List TxEvent
  deriving DecidableEq, Repr

/-- The Go method `PostgresStore.Swipe`. The result `none` is a run-time panic. The deferred
`tx.RollbackEx` runs on every return after `Begin` succeeded; after a commit it has no
effect. -/
def Swipe (clearTail : Bool) (f : Faults) (st : Store) (userId swipedUserId : Int) (liked : Bool) :
    Option SwipeOutcome :=
  match getSwipeProfiles f st userId swipedUserId with
  | .error e => some ⟨false, 0, some e, st, [.query]⟩
  | .ok profiles =>
    match goIndex profiles (slicesIndexFunc profiles (fun p => p.Id == userId)),
          goIndex profiles (slicesIndexFunc profiles (fun p => p.Id == swipedUserId)) with
    | some swiperProfile, some swipedProfile =>
      let swipedOn := swiperProfile.SwipedOn ++ [swipedUserId]
      let isMatch := liked && slicesContains swiperProfile.SwipedYesBy swipedUserId
      if f.begin.isSome then some ⟨false, 0, some .ErrDatabaseError, st, [.query, .begin]⟩
      else
        let tx : Tx := ⟨st, false⟩
        if isMatch then
          let index := slicesIndex swiperProfile.SwipedYesBy swipedUserId
          match slicesDelete clearTail swiperProfile.SwipedYesBy index (index + 1) with
          | Option.none => Option.none
          | some (_, swipedYesBy) =>
            let tx := tx.ExecEx f.updateSwiper (.updateLedger swipedYesBy swipedOn userId)
            match tx.insertMatch f.insertMatch userId swipedUserId with
            | (_, Option.none) =>
              some ⟨false, 0, some .ErrDatabaseError, st,
                [.query, .begin, .exec, .queryRow, .rollback]⟩
            | (tx, some id) =>
              some ⟨true, id, Option.none, tx.CommitEx f.commit st,
                [.query, .begin, .exec, .queryRow, .commit, .rollback]⟩
        else if liked then
          let swipedYesBy := swipedProfile.SwipedYesBy ++ [userId]
          let tx := tx.ExecEx f.updateSwiper (.updateSwipedOn swipedOn userId)
          let tx := tx.ExecEx f.updateSwiped (.updateSwipedYesBy swipedYesBy swipedUserId)
          some ⟨false, 0, Option.none, tx.CommitEx f.commit st,
            [.query, .begin, .exec, .exec, .commit, .rollback]⟩
        else
          let tx := tx.ExecEx f.updateSwiper (.updateSwipedOn swipedOn userId)
          some ⟨false, 0, Option.none, tx.CommitEx f.commit st,
            [.query, .begin, .exec, .commit, .rollback]⟩
    | _, _ => Option.none

/-- Lines 42-101 of `Swipe`: what the method does once `swiperProfile` and `swipedProfile`
have been picked from the query result. Used to state what `Swipe` computes when both ids
resolve. -/
def swipeWith (clearTail : Bool) (f : Faults) (st : Store) (userId swipedUserId : Int)
    (liked : Bool) (swiperProfile swipedProfile : SwipeDetails) : Option SwipeOutcome :=
  let swipedOn := swiperProfile.SwipedOn ++ [swipedUserId]
  let isMatch := liked && slicesContains swiperProfile.SwipedYesBy swipedUserId
  if f.begin.isSome then some ⟨false, 0, some .ErrDatabaseError, st, [.query, .begin]⟩
  else
    let tx : Tx := ⟨st, false⟩
    if isMatch then
      let index := slicesIndex swiperProfile.SwipedYesBy swipedUserId
      match slicesDelete clearTail swiperProfile.SwipedYesBy index (index + 1) with
      | Option.none => Option.none
      | some (_, swipedYesBy) =>
        let tx := tx.ExecEx f.updateSwiper (.updateLedger swipedYesBy swipedOn userId)
        match tx.insertMatch f.insertMatch userId swipedUserId with
        | (_, Option.none) =>
          some ⟨false, 0, some .ErrDatabaseError, st,
            [.query, .begin, .exec, .queryRow, .rollback]⟩
        | (tx, some id) =>
          some ⟨true, id, Option.none, tx.CommitEx f.commit st,
            [.query, .begin, .exec, .queryRow, .commit, .rollback]⟩
    else if liked then
      let swipedYesBy := swipedProfile.SwipedYesBy ++ [userId]
      let tx := tx.ExecEx f.updateSwiper (.updateSwipedOn swipedOn userId)
      let tx := tx.ExecEx f.updateSwiped (.updateSwipedYesBy swipedYesBy swipedUserId)
      some ⟨false, 0, Option.none, tx.CommitEx f.commit st,
        [.query, .begin, .exec, .exec, .commit, .rollback]⟩
    else
      let tx := tx.ExecEx f.updateSwiper (.updateSwipedOn swipedOn userId)
      some ⟨false, 0, Option.none, tx.CommitEx f.commit st,
        [.query, .begin, .exec, .commit, .rollback]⟩

/-- One call of `Swipe` in a sequence of calls: the failures injected into it and its
arguments. -/
structure Call where
  faults : Faults
  userId : Int
  swipedUserId : Int
  liked : Bool
  deriving DecidableEq, Repr

/-- The committed database after a sequence of `Swipe` calls made one after the other, each of
which returned without error (`none` as soon as a call panics or returns an error). -/
def runSwipes (clearTail : Bool) : Store → List Call → Option Store
  | st, [] => some st
  | st, c :: cs =>
    match Swipe clearTail c.faults st c.userId c.swipedUserId c.liked with
    | some o => if o.err = Option.none then runSwipes clearTail o.store cs else Option.none
    | Option.none => Option.none

/-- The row of `matches` is a match of the unordered pair of `a` and `b`. -/
def MatchRow.isPair (m : MatchRow) (a b : Int) : Bool :=
  (m.user1Id == a && m.user2Id == b) || (m.user1Id == b && m.user2Id == a)

/-- Number of rows of `matches` for the unordered pair of `a` and `b`. -/
def Store.matchCount (st : Store) (a b : Int) : Nat :=
  (st.matchRows.filter (fun m => m.isPair a b)).length

/-- Every ledger of the store is empty and there is no match. -/
def Store.isFresh (st : Store) : Prop :=
  (∀ p ∈ st.profiles, p.SwipedOn = [] ∧ p.SwipedYesBy = []) ∧ st.matchRows = []

/-- Some call of the list is a swipe of `a` on `b`. -/
def swipedIn (calls : List Call) (a b : Int) : Prop :=
  ∃ c ∈ calls, c.userId = a ∧ c.swipedUserId = b

/-- Some call of the list is a like swipe of `a` on `b`. -/
def likedIn (calls : List Call) (a b : Int) : Prop :=
  ∃ c ∈ calls, c.userId = a ∧ c.swipedUserId = b ∧ c.liked = true

/-- The ordered pair (swiper, target) of a call. -/
def Call.pair (c : Call) : Int × Int := (c.userId, c.swipedUserId)

/-- No ordered pair (swiper, target) is swiped more than once in the list of calls. -/
def noRepeat (calls : List Call) : Prop := (calls.map Call.pair).Nodup

/-- The value that a vacated slot of a `SwipedYesBy` list holds when `slices.Delete` zeroes the
slots it vacates: such an entry `0` need not come from a like swipe. -/
def isVacated (clearTail : Bool) (x : Int) : Prop := clearTail = true ∧ x = 0

/-- The invariant of the ledgers and of the match table along a sequence of calls `done` in
which no ordered pair repeats. -/
structure LedgerInv (clearTail : Bool) (done : List Call) (st : Store) : Prop where
  match_swiped : ∀ m ∈ st.matchRows, swipedIn done m.user1Id m.user2Id
  yesBy_liked : ∀ r ∈ st.profiles, ∀ x ∈ r.SwipedYesBy, ¬ isVacated clearTail x →
    likedIn done x r.Id
  yesBy_unmatched : ∀ r ∈ st.profiles, ∀ x ∈ r.SwipedYesBy, ¬ isVacated clearTail x →
    ∀ m ∈ st.matchRows, ¬ (m.user1Id = x ∧ m.user2Id = r.Id)
  match_reciprocal : ∀ m ∈ st.matchRows, ¬ isVacated clearTail m.user2Id →
    swipedIn done m.user2Id m.user1Id
  match_unique : ∀ a b, st.matchCount a b ≤ 1

/-- What holds in addition along a sequence of calls without repeated ordered pair when
`slices.Delete` zeroes the slot it vacates: a non-zero id occurs at most once in a `SwipedYesBy`
list, and the owner of the list has no row of `matches` as the swiper of that id. -/
structure ConsumedInv (st : Store) : Prop where
  yesBy_once : ∀ r ∈ st.profiles, ∀ x : Int, x ≠ 0 → r.SwipedYesBy.count x ≤ 1
  yesBy_unreciprocated : ∀ r ∈ st.profiles, ∀ x ∈ r.SwipedYesBy, x ≠ 0 →
    ∀ m ∈ st.matchRows, ¬ (m.user1Id = r.Id ∧ m.user2Id = x)

/-! ## Two concurrent calls of `Swipe` -/

/-- Lines 34-40 of `Swipe`: the read of the two ledgers, which `getSwipeProfiles` issues on the
connection pool before `Begin` is called, and the choice of the swiper's and of the target's
row. The result `none` is the index-out-of-range panic. -/
def swipeRead (f : Faults) (st : Store) (userId swipedUserId : Int) :
    Option (Except DbError (SwipeDetails × SwipeDetails)) :=
  match getSwipeProfiles f st userId swipedUserId with
  | .error e => some (.error e)
  | .ok profiles =>
    match goIndex profiles (slicesIndexFunc profiles (fun p => p.Id == userId)),
          goIndex profiles (slicesIndexFunc profiles (fun p => p.Id == swipedUserId)) with
    | some swiperProfile, some swipedProfile => some (.ok (swiperProfile, swipedProfile))
    | _, _ => Option.none

/-- Two like swipes, `a` on `b` and `b` on `a`, handled concurrently (each request of the HTTP
server runs `Swipe` on its own goroutine), in the interleaving in which both calls have read the
ledgers before either begins its transaction: both reads see the store `st`; then the
transaction of the first call runs and commits, then that of the second call runs on the store
the first one left, with the rows it read earlier. No database call fails. -/
def swipeBothReadFirst (clearTail : Bool) (st : Store) (a b : Int) :
    Option (SwipeOutcome × SwipeOutcome) :=
  match swipeRead Faults.none st a b, swipeRead Faults.none st b a with
  | some (.ok (pa, pb)), some (.ok (qb, qa)) =>
    match swipeWith clearTail Faults.none st a b true pa pb with
    | some o1 =>
      match swipeWith clearTail Faults.none o1.store b a true qb qa with
      | some o2 => some (o1, o2)
      | Option.none => Option.none
    | Option.none => Option.none
  | _, _ => Option.none

/-! ## Response of `swipeHandler` -/

/-- The Go struct `SwipeResponse` (`matched`, and `matchId` with `omitempty`). -/
structure SwipeResponse where
  Matched : Bool
  MatchId : Int
  deriving DecidableEq, Repr

/-- The response `swipeHandler` builds from a successful `Store.Swipe`: `MatchId` is set only
when the swipe matched. -/
def swipeResponse (swipeResult : Bool) (matchId : Int) : SwipeResponse :=
  let response : SwipeResponse := ⟨swipeResult, 0⟩
  if swipeResult then { response with MatchId := matchId } else response

/-- The keys of the JSON object encoding a `SwipeResponse`: `matchId` is tagged `omitempty`
and is left out when it is zero. -/
def SwipeResponse.jsonKeys (r : SwipeResponse) : List String :=
  if r.MatchId = 0 then ["matched"] else ["matched", "matchId"]

/-! ## Error responses of the server (`internal/server/error.go`, `server.go`) -/

/-- The error values declared in `internal/server/error.go`. -/
inductive ServerErr where
  | ErrInvalidRequest
  | ErrMustBeLoggedIn
  | ErrValidationError
  | ErrUnexpectedError
  deriving DecidableEq, Repr

/-- A Go `error` value as `writeErrorResponse` can receive it: one of the package-level values of
package `server` or of package `db` (Go compares them by identity), or any other error value,
of which only the message matters. -/
inductive GoError where
  | server (e : ServerErr)
  | db (e : DbError)
  | other (msg : String)
  deriving DecidableEq, Repr

/-- Method `Error()` of the values of `internal/server/error.go`. -/
def ServerErr.Error : ServerErr → String
  | .ErrInvalidRequest => "invalid request"
  | .ErrMustBeLoggedIn => "please log in to your account"
  | .ErrValidationError => "request body contained unexpected values"
  | .ErrUnexpectedError => "unexpected error occurred"

/-- Method `Error()` of the values of `internal/db/error.go`. -/
def DbError.Error : DbError → String
  | .ErrQueryTimedOut => "query timed out"
  | .ErrDatabaseError => "could not access data store"
  | .ErrSwipeRequestInvalid => "failed to swipe on profile"
  | .ErrNoValidSession => "no valid session"
  | .ErrLoginFailed => "could not log in"

/-- Method `Error()` of an error value. -/
def GoError.Error : GoError → String
  | .server e => e.Error
  | .db e => e.Error
  | .other msg => msg

/-- What a handler has written to the `http.ResponseWriter`: the `Content-Type` header, the
status code, and the fields of the JSON object in the body. -/
structure HttpResponse where
  contentType : String
  status : Nat
  body : List (String × String)
  deriving DecidableEq, Repr

/-- The Go function `writeJsonResponse`, for a body of type `ServerError` (one string field
tagged `error`). -/
def writeJsonResponse (status : Nat) (serverError : String) : HttpResponse :=
  ⟨"application/json", status, [("error", serverError)]⟩

/-- The Go function `writeErrorResponse`: the `switch err` selects the status, and the body is
`ServerError{err.Error()}`. -/
def writeErrorResponse (err : GoError) : HttpResponse :=
  let status : Nat :=
    match err with
    | .server .ErrValidationError => 400
    | .server .ErrMustBeLoggedIn => 401
    | .server .ErrInvalidRequest => 400
    | _ => 500
  writeJsonResponse status err.Error

/-! ## Ordering of discover profiles (`internal/server/filter-utils.go`) -/

/-- The Go struct `db.Location`. -/
structure Location where
  Lat : Float
  Long : Float

/-- The Go struct `db.DiscoverProfile`. -/
structure DiscoverProfile where
  Id : Int
  Age : Int
  Name : String
  Gender : String
  DistanceFromMe : Int
  Lat : Float
  Long : Float

/-- Go `sort.Slice(x, less)`: sorts `x` by `less`. Go does not fix the order of elements that
`less` does not separate; an insertion sort stands for it here, and nothing below depends on
that order. -/
def sortSlice {α : Type} (less : α → α → Bool) (x : List α) : List α :=
  x.insertionSort (fun a b => less b a = false)

/-- The Go function `sortProfilesByLocation`: first every profile gets its `DistanceFromMe`
from `getDistanceInKm`, then the slice is sorted by `DistanceFromMe`. The function
`getDistanceInKm` is floating-point trigonometry converted to `int`; it is a parameter here, so
that what is proved holds whatever it computes. -/
def sortProfilesByLocation (getDistanceInKm : Float → Float → Float → Float → Int)
    (profiles : List DiscoverProfile) (location : Location) : List DiscoverProfile :=
  let profiles := profiles.map (fun profile =>
    { profile with
      DistanceFromMe := getDistanceInKm location.Lat location.Long profile.Lat profile.Long })
  sortSlice (fun pi pj => decide (pi.DistanceFromMe < pj.DistanceFromMe)) profiles

/-! ## Package `slices`: basic facts -/

theorem goIndex_slicesIndexFunc {α : Type} (s : List α) (p : α → Bool) :
    goIndex s (slicesIndexFunc s p) = s.find? p := by
  induction s with
  | nil => simp [goIndex, slicesIndexFunc]
  | cons x xs ih =>
    unfold goIndex slicesIndexFunc at *
    by_cases hx : p x = true
    · simp [List.findIdx_cons, hx]
    · simp only [Bool.not_eq_true] at hx
      simp only [List.findIdx_cons, hx, List.find?_cons, List.length_cons]
      by_cases hlt : List.findIdx p xs < xs.length
      · simp [hlt] at ih ⊢
        have h1 : ¬ ((List.findIdx p xs : Int) + 1 < 0) := by omega
        have h2 : ¬ ((List.findIdx p xs : Int) < 0) := by omega
        simp [h1, h2] at ih ⊢
        exact ih
      · simp [hlt] at ih ⊢
        exact ih

theorem slicesContains_iff (s : List Int) (v : Int) : slicesContains s v = true ↔ v ∈ s := by
  unfold slicesContains slicesIndex slicesIndexFunc
  by_cases hlt : List.findIdx (fun x => v == x) s < s.length
  · simp only [hlt, if_true]
    have := List.findIdx_getElem (w := hlt)
    constructor
    · intro _
      simp at this
      rw [this]
      exact List.getElem_mem _
    · intro _; simp
  · simp only [hlt, if_false]
    constructor
    · intro h; simp at h
    · intro h
      exfalso; apply hlt
      apply List.findIdx_lt_length_of_exists
      exact ⟨v, h, by simp⟩


theorem find?_filter_left (rows : List SwipeDetails) (u t : Int) :
    (rows.filter (fun p => p.Id == u || p.Id == t)).find? (fun p => p.Id == u)
      = rows.find? (fun p => p.Id == u) := by
  induction rows with
  | nil => rfl
  | cons r rs ih =>
    by_cases h1 : r.Id = u
    · simp [List.filter_cons, h1]
    · by_cases h2 : r.Id = t
      · simp [List.filter_cons, h1, h2, List.find?_cons, ih]
      · simp [List.filter_cons, h1, h2, List.find?_cons, ih]

theorem find?_filter_right (rows : List SwipeDetails) (u t : Int) :
    (rows.filter (fun p => p.Id == u || p.Id == t)).find? (fun p => p.Id == t)
      = rows.find? (fun p => p.Id == t) := by
  induction rows with
  | nil => rfl
  | cons r rs ih =>
    by_cases h2 : r.Id = t
    · simp [List.filter_cons, h2]
    · by_cases h1 : r.Id = u
      · simp [List.filter_cons, h1, h2, List.find?_cons, ih]
      · simp [List.filter_cons, h1, h2, List.find?_cons, ih]

theorem slicesDelete_index (clearTail : Bool) (s : List Int) (v : Int) (hv : v ∈ s) :
    ∃ kept stored, slicesDelete clearTail s (slicesIndex s v) (slicesIndex s v + 1)
        = some (kept, stored) ∧
      (∀ x ∈ stored, x ∈ s ∨ (clearTail = true ∧ x = 0)) := by
  have hlt : List.findIdx (fun x => v == x) s < s.length :=
    List.findIdx_lt_length_of_exists ⟨v, hv, by simp⟩
  have hidx : slicesIndex s v = (List.findIdx (fun x => v == x) s : Int) := by
    simp [slicesIndex, slicesIndexFunc, hlt]
  rw [hidx]
  unfold slicesDelete
  have hb : (0 : Int) ≤ (List.findIdx (fun x => v == x) s : Int) ∧
      (List.findIdx (fun x => v == x) s : Int) ≤ (List.findIdx (fun x => v == x) s : Int) + 1 ∧
      (List.findIdx (fun x => v == x) s : Int) + 1 ≤ (s.length : Int) := by omega
  rw [if_pos hb]
  refine ⟨_, _, rfl, ?_⟩
  intro x hx
  simp only [List.mem_append] at hx
  rcases hx with (hx | hx) | hx
  · exact Or.inl (List.mem_of_mem_take hx)
  · exact Or.inl (List.mem_of_mem_drop hx)
  · cases clearTail with
    | true =>
      simp only [if_true] at hx
      exact Or.inr ⟨rfl, (List.mem_replicate.mp hx).2⟩
    | false =>
      simp only [Bool.false_eq_true, if_false] at hx
      exact Or.inl (List.mem_of_mem_drop hx)

/-! ## `Swipe` when both ids resolve -/

theorem lookup_some_id {st : Store} {id : Int} {p : SwipeDetails} (h : st.lookup id = some p) :
    p.Id = id ∧ p ∈ st.profiles := by
  unfold Store.lookup at h
  have h1 := List.find?_some h
  have h2 := List.mem_of_find?_eq_some h
  exact ⟨by simpa using h1, h2⟩

theorem two_le_filter_length {st : Store} {u t : Int} {pu pt : SwipeDetails}
    (hu : st.lookup u = some pu) (ht : st.lookup t = some pt) (hne : u ≠ t) :
    2 ≤ (st.profiles.filter (fun p => p.Id == u || p.Id == t)).length := by
  obtain ⟨hui, hum⟩ := lookup_some_id hu
  obtain ⟨hti, htm⟩ := lookup_some_id ht
  have h1 : pu ∈ st.profiles.filter (fun p => p.Id == u || p.Id == t) := by
    simp [List.mem_filter, hum, hui]
  have h2 : pt ∈ st.profiles.filter (fun p => p.Id == u || p.Id == t) := by
    simp [List.mem_filter, htm, hti]
  have hd : pu ≠ pt := by
    intro h; apply hne; rw [← hui, ← hti, h]
  generalize st.profiles.filter (fun p => p.Id == u || p.Id == t) = l at h1 h2
  match l, h1, h2 with
  | [], h1, _ => simp at h1
  | [a], h1, h2 =>
    simp at h1 h2
    exact absurd (h1.trans h2.symm) hd
  | _ :: _ :: _, _, _ => simp

theorem Swipe_resolved (clearTail : Bool) (f : Faults) (st : Store) (u t : Int) (liked : Bool)
    (pu pt : SwipeDetails) (hu : st.lookup u = some pu) (ht : st.lookup t = some pt)
    (hne : u ≠ t) (hq : f.query = Option.none) (hs : f.scan = Option.none) :
    Swipe clearTail f st u t liked = swipeWith clearTail f st u t liked pu pt := by
  have hlen := two_le_filter_length hu ht hne
  have hg : getSwipeProfiles f st u t
      = .ok (st.profiles.filter (fun p => p.Id == u || p.Id == t)) := by
    unfold getSwipeProfiles
    simp only [hq, hs, Option.isSome_none, Bool.false_eq_true, if_false, Bool.false_and]
    rw [if_neg (by omega)]
  unfold Swipe
  rw [hg]
  simp only [goIndex_slicesIndexFunc, find?_filter_left, find?_filter_right]
  unfold Store.lookup at hu ht
  rw [hu, ht]
  rfl


theorem swipeWith_match (clearTail : Bool) (st : Store) (u t : Int)
    (pu pt : SwipeDetails) (hm : t ∈ pu.SwipedYesBy) :
    ∃ kept stored,
      slicesDelete clearTail pu.SwipedYesBy (slicesIndex pu.SwipedYesBy t)
        (slicesIndex pu.SwipedYesBy t + 1) = some (kept, stored) ∧
      (∀ x ∈ stored, x ∈ pu.SwipedYesBy ∨ (clearTail = true ∧ x = 0)) ∧
      swipeWith clearTail Faults.none st u t true pu pt =
        some ⟨true, ((st.matchSeq + 1 : Nat) : Int), Option.none,
          ⟨(Statement.updateLedger stored (pu.SwipedOn ++ [t]) u).apply st.profiles,
            st.matchRows ++ [⟨((st.matchSeq + 1 : Nat) : Int), u, t⟩], st.matchSeq + 1⟩,
          [.query, .begin, .exec, .queryRow, .commit, .rollback]⟩ := by
  obtain ⟨kept, stored, hd, hmem⟩ := slicesDelete_index clearTail pu.SwipedYesBy t hm
  refine ⟨kept, stored, hd, hmem, ?_⟩
  have hc : slicesContains pu.SwipedYesBy t = true := (slicesContains_iff _ _).mpr hm
  unfold swipeWith
  simp only [hc, Bool.and_self, hd, Faults.none, Option.isSome_none, Bool.false_eq_true,
    if_false, if_true, Tx.ExecEx, Tx.insertMatch, Tx.CommitEx, Bool.or_self]

theorem swipeWith_pending (clearTail : Bool) (st : Store) (u t : Int)
    (pu pt : SwipeDetails) (hm : t ∉ pu.SwipedYesBy) :
    swipeWith clearTail Faults.none st u t true pu pt =
      some ⟨false, 0, Option.none,
        ⟨(Statement.updateSwipedYesBy (pt.SwipedYesBy ++ [u]) t).apply
            ((Statement.updateSwipedOn (pu.SwipedOn ++ [t]) u).apply st.profiles),
          st.matchRows, st.matchSeq⟩,
        [.query, .begin, .exec, .exec, .commit, .rollback]⟩ := by
  have hc : slicesContains pu.SwipedYesBy t = false := by
    rw [← Bool.not_eq_true, slicesContains_iff]; exact hm
  unfold swipeWith
  simp only [hc, Bool.and_false, Faults.none, Option.isSome_none, Bool.false_eq_true,
    if_false, if_true, Tx.ExecEx, Tx.CommitEx, Bool.or_self]

theorem swipeWith_pass (clearTail : Bool) (st : Store) (u t : Int)
    (pu pt : SwipeDetails) :
    swipeWith clearTail Faults.none st u t false pu pt =
      some ⟨false, 0, Option.none,
        ⟨(Statement.updateSwipedOn (pu.SwipedOn ++ [t]) u).apply st.profiles,
          st.matchRows, st.matchSeq⟩,
        [.query, .begin, .exec, .commit, .rollback]⟩ := by
  unfold swipeWith
  simp only [Bool.false_and, Faults.none, Option.isSome_none, Bool.false_eq_true,
    if_false, Tx.ExecEx, Tx.CommitEx, Bool.or_self]

/-- C1. For distinct ids that both resolve to stored profiles and no failing database call,
`Swipe` returns without error and `matched = true` exactly when `liked` is true and the target
id is in the swiper's `SwipedYesBy` as read from the store. -/
theorem Swipe_matched_iff (clearTail : Bool) (st : Store) (u t : Int) (liked : Bool)
    (pu pt : SwipeDetails) (hu : st.lookup u = some pu) (ht : st.lookup t = some pt)
    (hne : u ≠ t) :
    ∃ o, Swipe clearTail Faults.none st u t liked = some o ∧ o.err = Option.none ∧
      (o.matched = true ↔ (liked = true ∧ t ∈ pu.SwipedYesBy)) := by
  rw [Swipe_resolved clearTail Faults.none st u t liked pu pt hu ht hne rfl rfl]
  cases liked with
  | false =>
    rw [swipeWith_pass]
    exact ⟨_, rfl, rfl, by simp⟩
  | true =>
    by_cases hm : t ∈ pu.SwipedYesBy
    · obtain ⟨kept, stored, _, _, h⟩ := swipeWith_match clearTail st u t pu pt hm
      rw [h]
      exact ⟨_, rfl, rfl, by simp [hm]⟩
    · rw [swipeWith_pending clearTail st u t pu pt hm]
      exact ⟨_, rfl, rfl, by simp [hm]⟩


theorem onRow_Id (stmt : Statement) (p : SwipeDetails) : (stmt.onRow p).Id = p.Id := by
  cases stmt <;> simp only [Statement.onRow] <;> split <;> rfl

theorem find?_apply (stmt : Statement) (rows : List SwipeDetails) (k : Int) :
    (stmt.apply rows).find? (fun p => p.Id == k)
      = (rows.find? (fun p => p.Id == k)).map stmt.onRow := by
  unfold Statement.apply
  rw [List.find?_map]
  congr 1
  apply congrArg (fun q => List.find? q rows)
  funext p
  simp [onRow_Id]

/-- C2. For two distinct stored profiles `a` and `b` with `a` not in the `SwipedYesBy` of `b`
(nothing is needed of the `SwipedYesBy` of `a`): `b` liking `a` returns `matched = false`
with match id 0 (and the response has no `matchId` key), and `a` then liking `b` returns
`matched = true` with a non-zero match id, which the response carries. -/
theorem Swipe_like_then_like_back (clearTail : Bool) (st : Store) (a b : Int)
    (pa pb : SwipeDetails) (ha : st.lookup a = some pa) (hb : st.lookup b = some pb)
    (hne : a ≠ b) (hba : a ∉ pb.SwipedYesBy) :
    ∃ o1 o2, Swipe clearTail Faults.none st b a true = some o1 ∧
      o1.err = Option.none ∧ o1.matched = false ∧ o1.matchId = 0 ∧
      (swipeResponse o1.matched o1.matchId).jsonKeys = ["matched"] ∧
      Swipe clearTail Faults.none o1.store a b true = some o2 ∧
      o2.err = Option.none ∧ o2.matched = true ∧ o2.matchId ≠ 0 ∧
      (swipeResponse o2.matched o2.matchId).MatchId = o2.matchId ∧
      (swipeResponse o2.matched o2.matchId).jsonKeys = ["matched", "matchId"] := by
  have hai := (lookup_some_id ha).1
  have h1 := Swipe_resolved clearTail Faults.none st b a true pb pa hb ha (Ne.symm hne) rfl rfl
  rw [swipeWith_pending clearTail st b a pb pa hba] at h1
  have ha1 : Store.lookup ⟨(Statement.updateSwipedYesBy (pa.SwipedYesBy ++ [b]) a).apply
        ((Statement.updateSwipedOn (pb.SwipedOn ++ [a]) b).apply st.profiles),
        st.matchRows, st.matchSeq⟩ a
      = some ((Statement.updateSwipedYesBy (pa.SwipedYesBy ++ [b]) a).onRow
        ((Statement.updateSwipedOn (pb.SwipedOn ++ [a]) b).onRow pa)) := by
    unfold Store.lookup at ha ⊢
    simp only [find?_apply, ha, Option.map_some']
  have hb1 : Store.lookup ⟨(Statement.updateSwipedYesBy (pa.SwipedYesBy ++ [b]) a).apply
        ((Statement.updateSwipedOn (pb.SwipedOn ++ [a]) b).apply st.profiles),
        st.matchRows, st.matchSeq⟩ b
      = some ((Statement.updateSwipedYesBy (pa.SwipedYesBy ++ [b]) a).onRow
        ((Statement.updateSwipedOn (pb.SwipedOn ++ [a]) b).onRow pb)) := by
    unfold Store.lookup at hb ⊢
    simp only [find?_apply, hb, Option.map_some']
  have h2 := Swipe_resolved clearTail Faults.none _ a b true _ _ ha1 hb1 hne rfl rfl
  have hmem : b ∈ ((Statement.updateSwipedYesBy (pa.SwipedYesBy ++ [b]) a).onRow
      ((Statement.updateSwipedOn (pb.SwipedOn ++ [a]) b).onRow pa)).SwipedYesBy := by
    simp [Statement.onRow, hai, hne]
  obtain ⟨kept, stored, _, _, h⟩ := swipeWith_match clearTail
    ⟨(Statement.updateSwipedYesBy (pa.SwipedYesBy ++ [b]) a).apply
        ((Statement.updateSwipedOn (pb.SwipedOn ++ [a]) b).apply st.profiles),
        st.matchRows, st.matchSeq⟩ a b _
    ((Statement.updateSwipedYesBy (pa.SwipedYesBy ++ [b]) a).onRow
      ((Statement.updateSwipedOn (pb.SwipedOn ++ [a]) b).onRow pb)) hmem
  rw [h] at h2
  refine ⟨_, _, h1, rfl, rfl, rfl, rfl, h2, rfl, rfl, ?_, ?_, ?_⟩
  · simp only; omega
  · simp [swipeResponse]
  · simp only [swipeResponse, SwipeResponse.jsonKeys, if_true]
    rw [if_neg (by omega)]


theorem getSwipeProfiles_cases (f : Faults) (st : Store) (u t : Int) :
    (∃ e, getSwipeProfiles f st u t = .error e ∧
      (e = DbError.ErrDatabaseError ∨ e = DbError.ErrSwipeRequestInvalid)) ∨
    (f.query = Option.none ∧ f.scan = Option.none ∧
      2 ≤ (st.profiles.filter (fun p => p.Id == u || p.Id == t)).length ∧
      getSwipeProfiles f st u t
        = .ok (st.profiles.filter (fun p => p.Id == u || p.Id == t))) := by
  unfold getSwipeProfiles
  cases hq : f.query with
  | some c => exact Or.inl ⟨_, by simp, Or.inl rfl⟩
  | none =>
    simp only [Option.isSome_none, Bool.false_eq_true, if_false]
    cases hs : f.scan with
    | some rf =>
      left
      cases rf with
      | scan c =>
        simp only
        split
        · exact ⟨_, rfl, Or.inl rfl⟩
        · exact ⟨_, rfl, Or.inr rfl⟩
      | next c firstRowRead =>
        simp only
        have hlen : (if firstRowRead = true then
            (st.profiles.filter (fun p => p.Id == u || p.Id == t)).take 1
            else []).length < 2 := by
          split
          · rw [List.length_take]; omega
          · simp
        rw [if_pos hlen]
        exact ⟨_, rfl, Or.inr rfl⟩
    | none =>
      simp only
      by_cases hlen : (st.profiles.filter (fun p => p.Id == u || p.Id == t)).length < 2
      · rw [if_pos hlen]
        exact Or.inl ⟨_, rfl, Or.inr rfl⟩
      · rw [if_neg hlen]
        exact Or.inr ⟨trivial, trivial, by omega, rfl⟩

theorem Swipe_resolved_faults (clearTail : Bool) (f : Faults) (st : Store) (u t : Int)
    (liked : Bool) (pu pt : SwipeDetails) (hu : st.lookup u = some pu)
    (ht : st.lookup t = some pt) (hne : u ≠ t) :
    (∃ e, Swipe clearTail f st u t liked = some ⟨false, 0, some e, st, [.query]⟩) ∨
      Swipe clearTail f st u t liked = swipeWith clearTail f st u t liked pu pt := by
  rcases getSwipeProfiles_cases f st u t with ⟨e, he, _⟩ | ⟨hq, hs, _, _⟩
  · left
    refine ⟨e, ?_⟩
    unfold Swipe
    rw [he]
  · right
    exact Swipe_resolved clearTail f st u t liked pu pt hu ht hne hq hs

theorem swipeWith_cases (clearTail : Bool) (f : Faults) (st : Store) (u t : Int)
    (liked : Bool) (pu pt : SwipeDetails) :
    ∃ o, swipeWith clearTail f st u t liked pu pt = some o ∧
      ((o.store.profiles = st.profiles ∧ o.store.matchRows = st.matchRows) ∨
        (liked = true ∧ t ∈ pu.SwipedYesBy ∧ o.err = Option.none ∧ o.matched = true ∧
          ∃ stored, (∀ x ∈ stored, x ∈ pu.SwipedYesBy ∨ (clearTail = true ∧ x = 0)) ∧
            o.store.profiles
              = (Statement.updateLedger stored (pu.SwipedOn ++ [t]) u).apply st.profiles ∧
            o.store.matchRows = st.matchRows ++ [⟨o.matchId, u, t⟩]) ∨
        (liked = true ∧ t ∉ pu.SwipedYesBy ∧ o.err = Option.none ∧ o.matched = false ∧
          o.store.profiles = (Statement.updateSwipedYesBy (pt.SwipedYesBy ++ [u]) t).apply
              ((Statement.updateSwipedOn (pu.SwipedOn ++ [t]) u).apply st.profiles) ∧
          o.store.matchRows = st.matchRows) ∨
        (liked = false ∧ o.err = Option.none ∧ o.matched = false ∧
          o.store.profiles
            = (Statement.updateSwipedOn (pu.SwipedOn ++ [t]) u).apply st.profiles ∧
          o.store.matchRows = st.matchRows)) := by
  unfold swipeWith
  by_cases hb : f.begin.isSome = true
  · simp [hb]
  · simp only [hb, Bool.false_eq_true, if_false]
    cases liked with
    | false =>
      simp only [Bool.false_and, Bool.false_eq_true, if_false]
      refine ⟨_, rfl, ?_⟩
      cases hus : f.updateSwiper <;> cases hcm : f.commit
      · right; right; right
        simp [Tx.ExecEx, Tx.CommitEx]
      all_goals left; simp [Tx.ExecEx, Tx.CommitEx]
    | true =>
      by_cases hm : t ∈ pu.SwipedYesBy
      · have hc : slicesContains pu.SwipedYesBy t = true := (slicesContains_iff _ _).mpr hm
        obtain ⟨kept, stored, hd, hmem⟩ := slicesDelete_index clearTail pu.SwipedYesBy t hm
        simp only [hc, Bool.and_self, if_true, hd]
        cases hus : f.updateSwiper <;> cases hin : f.insertMatch <;> cases hcm : f.commit <;>
          simp only [Tx.ExecEx, Tx.insertMatch, Option.isSome_none, Option.isSome_some,
            Bool.or_self, Bool.false_eq_true, if_false, if_true, Bool.or_true, Bool.or_false,
            Bool.true_or] <;>
          refine ⟨_, rfl, ?_⟩
        · right; left
          exact ⟨trivial, hm, rfl, rfl, stored, hmem, by simp [Tx.CommitEx], by simp [Tx.CommitEx]⟩
        all_goals left; simp [Tx.CommitEx]
      · have hc : slicesContains pu.SwipedYesBy t = false := by
          rw [← Bool.not_eq_true, slicesContains_iff]; exact hm
        simp only [hc, Bool.and_false, Bool.false_eq_true, if_false, if_true]
        refine ⟨_, rfl, ?_⟩
        cases hus : f.updateSwiper <;> cases hud : f.updateSwiped <;> cases hcm : f.commit
        · right; right; left
          simp [Tx.ExecEx, Tx.CommitEx, hm]
        all_goals left; simp [Tx.ExecEx, Tx.CommitEx]


theorem getSwipeProfiles_ok {f : Faults} {st : Store} {u t : Int} {rows : List SwipeDetails}
    (h : getSwipeProfiles f st u t = .ok rows) :
    rows = st.profiles.filter (fun p => p.Id == u || p.Id == t) := by
  rcases getSwipeProfiles_cases f st u t with ⟨e, he, _⟩ | ⟨_, _, _, hok⟩
  · rw [he] at h; cases h
  · rw [hok] at h
    injection h with h
    exact h.symm

theorem Swipe_noerr_resolved {clearTail : Bool} {f : Faults} {st : Store} {u t : Int}
    {liked : Bool} {o : SwipeOutcome} (h : Swipe clearTail f st u t liked = some o)
    (he : o.err = Option.none) :
    ∃ pu pt, st.lookup u = some pu ∧ st.lookup t = some pt ∧
      swipeWith clearTail f st u t liked pu pt = some o := by
  unfold Swipe at h
  cases hg : getSwipeProfiles f st u t with
  | error e =>
    rw [hg] at h
    simp only [Option.some.injEq] at h
    rw [← h] at he
    cases he
  | ok rows =>
    rw [hg] at h
    have hrows := getSwipeProfiles_ok hg
    subst hrows
    simp only [goIndex_slicesIndexFunc, find?_filter_left, find?_filter_right] at h
    cases hu : st.profiles.find? (fun p => p.Id == u) with
    | none => rw [hu] at h; cases h
    | some pu =>
      cases ht : st.profiles.find? (fun p => p.Id == t) with
      | none => rw [hu, ht] at h; cases h
      | some pt =>
        rw [hu, ht] at h
        exact ⟨pu, pt, hu, ht, h⟩


theorem lookup_congr {st st' : Store} (h : st'.profiles = st.profiles) (k : Int) :
    st'.lookup k = st.lookup k := by
  unfold Store.lookup; rw [h]

theorem lookup_of_profiles {st : Store} {stmt : Statement} {rows : List SwipeDetails}
    {k : Int} {p : SwipeDetails} (h : st.profiles = stmt.apply rows)
    (hp : rows.find? (fun q => q.Id == k) = some p) :
    st.lookup k = some (stmt.onRow p) := by
  unfold Store.lookup
  rw [h, find?_apply, hp]
  rfl

/-- C5. A like swipe in the pending-like case (both profiles resolve, the target id is not in
the swiper's `SwipedYesBy`, no database call fails) returns `matched = false` without error,
leaves the rows of `matches` as they were, and afterwards the swiper's stored `SwipedOn` is the
old one with the target appended and the target's stored `SwipedYesBy` is the old one with the
swiper appended, so the target is a member of the former and the swiper of the latter. -/
theorem Swipe_pending_like (clearTail : Bool) (st : Store) (u t : Int)
    (pu pt : SwipeDetails) (hu : st.lookup u = some pu) (ht : st.lookup t = some pt)
    (hne : u ≠ t) (hm : t ∉ pu.SwipedYesBy) :
    ∃ o, Swipe clearTail Faults.none st u t true = some o ∧
      o.err = Option.none ∧ o.matched = false ∧ o.matchId = 0 ∧
      o.store.matchRows = st.matchRows ∧
      o.store.lookup u = some { pu with SwipedOn := pu.SwipedOn ++ [t] } ∧
      o.store.lookup t = some { pt with SwipedYesBy := pt.SwipedYesBy ++ [u] } ∧
      (∃ pu', o.store.lookup u = some pu' ∧ t ∈ pu'.SwipedOn) ∧
      (∃ pt', o.store.lookup t = some pt' ∧ u ∈ pt'.SwipedYesBy) := by
  have hui := (lookup_some_id hu).1
  have hti := (lookup_some_id ht).1
  have h := Swipe_resolved clearTail Faults.none st u t true pu pt hu ht hne rfl rfl
  rw [swipeWith_pending clearTail st u t pu pt hm] at h
  have h1 : Store.lookup ⟨(Statement.updateSwipedYesBy (pt.SwipedYesBy ++ [u]) t).apply
        ((Statement.updateSwipedOn (pu.SwipedOn ++ [t]) u).apply st.profiles),
        st.matchRows, st.matchSeq⟩ u = some { pu with SwipedOn := pu.SwipedOn ++ [t] } := by
    unfold Store.lookup at hu ⊢
    simp only [find?_apply, hu, Option.map_some']
    simp [Statement.onRow, hui, hne]
  have h2 : Store.lookup ⟨(Statement.updateSwipedYesBy (pt.SwipedYesBy ++ [u]) t).apply
        ((Statement.updateSwipedOn (pu.SwipedOn ++ [t]) u).apply st.profiles),
        st.matchRows, st.matchSeq⟩ t = some { pt with SwipedYesBy := pt.SwipedYesBy ++ [u] } := by
    unfold Store.lookup at ht ⊢
    simp only [find?_apply, ht, Option.map_some']
    simp [Statement.onRow, hti, Ne.symm hne]
  exact ⟨_, h, rfl, rfl, rfl, rfl, h1, h2, ⟨_, h1, by simp⟩, ⟨_, h2, by simp⟩⟩


/-- C6. Whatever database calls fail, for distinct resolving ids `Swipe` returns, and the
target's ledger row is the same afterwards for every pass swipe and for every swipe in the match
case; in every case (the pending-like case included) the target's `SwipedOn` is unchanged. -/
theorem Swipe_target_frame (clearTail : Bool) (f : Faults) (st : Store) (u t : Int)
    (liked : Bool) (pu pt : SwipeDetails) (hu : st.lookup u = some pu)
    (ht : st.lookup t = some pt) (hne : u ≠ t) :
    ∃ o, Swipe clearTail f st u t liked = some o ∧
      ((liked = false ∨ t ∈ pu.SwipedYesBy) → o.store.lookup t = some pt) ∧
      (∃ pt', o.store.lookup t = some pt' ∧ pt'.SwipedOn = pt.SwipedOn) := by
  have hti := (lookup_some_id ht).1
  have htu : ¬ pt.Id = u := by rw [hti]; exact Ne.symm hne
  rcases Swipe_resolved_faults clearTail f st u t liked pu pt hu ht hne with ⟨e, hre⟩ | hre
  · rw [hre]
    exact ⟨_, rfl, fun _ => ht, pt, ht, rfl⟩
  · rw [hre]
    obtain ⟨o, ho, hcases⟩ := swipeWith_cases clearTail f st u t liked pu pt
    refine ⟨o, ho, ?_⟩
    have ht' := ht
    unfold Store.lookup at ht'
    rcases hcases with ⟨hp, _⟩ | ⟨_, _, _, _, stored, _, hp, _⟩ | ⟨hl, hm, _, _, hp, _⟩ |
      ⟨_, _, _, hp, _⟩
    · rw [lookup_congr hp]
      exact ⟨fun _ => ht, pt, ht, rfl⟩
    · have h := lookup_of_profiles hp ht'
      have he : (Statement.updateLedger stored (pu.SwipedOn ++ [t]) u).onRow pt = pt := by
        simp [Statement.onRow, htu]
      rw [he] at h
      exact ⟨fun _ => h, pt, h, rfl⟩
    · have h1 : ((Statement.updateSwipedOn (pu.SwipedOn ++ [t]) u).apply st.profiles).find?
          (fun q => q.Id == t) = some pt := by
        rw [find?_apply, ht']
        simp [Statement.onRow, htu]
      have h := lookup_of_profiles hp h1
      refine ⟨?_, _, h, ?_⟩
      · intro hor
        rcases hor with hor | hor
        · rw [hl] at hor; cases hor
        · exact absurd hor hm
      · simp [Statement.onRow, hti]
    · have h := lookup_of_profiles hp ht'
      have he : (Statement.updateSwipedOn (pu.SwipedOn ++ [t]) u).onRow pt = pt := by
        simp [Statement.onRow, htu]
      rw [he] at h
      exact ⟨fun _ => h, pt, h, rfl⟩

/-- C10. In the match case, when the insert into `matches` fails (the swiper's update having
been issued in the transaction), `Swipe` returns `ErrDatabaseError` with `matched = false` and
match id 0, the transaction ends with a rollback and is never committed, and the committed
database is the one before the call. -/
theorem Swipe_match_insert_fails (clearTail : Bool) (f : Faults) (st : Store) (u t : Int)
    (pu pt : SwipeDetails) (hu : st.lookup u = some pu) (ht : st.lookup t = some pt)
    (hne : u ≠ t) (hm : t ∈ pu.SwipedYesBy) (hq : f.query = Option.none)
    (hs : f.scan = Option.none) (hb : f.begin = Option.none)
    (hi : f.insertMatch.isSome = true) :
    ∃ o, Swipe clearTail f st u t true = some o ∧
      o.err = some DbError.ErrDatabaseError ∧ o.matched = false ∧ o.matchId = 0 ∧
      o.store = st ∧
      o.trace = [.query, .begin, .exec, .queryRow, .rollback] ∧
      TxEvent.commit ∉ o.trace := by
  rw [Swipe_resolved clearTail f st u t true pu pt hu ht hne hq hs]
  have hc : slicesContains pu.SwipedYesBy t = true := (slicesContains_iff _ _).mpr hm
  obtain ⟨kept, stored, hd, _⟩ := slicesDelete_index clearTail pu.SwipedYesBy t hm
  unfold swipeWith
  simp only [hb, hc, hd, Option.isSome_none, Bool.false_eq_true, if_false, Bool.and_self,
    if_true, Tx.insertMatch, hi, Bool.or_true]
  exact ⟨_, rfl, rfl, rfl, rfl, rfl, rfl, by simp⟩


theorem filter_id_length_le_one (rows : List SwipeDetails) (k : Int)
    (hnd : (rows.map (fun p => p.Id)).Nodup) :
    (rows.filter (fun p => p.Id == k)).length ≤ 1 := by
  induction rows with
  | nil => simp
  | cons r rs ih =>
    simp only [List.map_cons, List.nodup_cons] at hnd
    by_cases hr : r.Id = k
    · have hnone : rs.filter (fun p => p.Id == k) = [] := by
        rw [List.filter_eq_nil_iff]
        intro p hp hpk
        apply hnd.1
        simp only [beq_iff_eq] at hpk
        rw [hr, ← hpk]
        exact List.mem_map_of_mem _ hp
      simp [List.filter_cons, hr, hnone]
    · simp only [List.filter_cons, beq_iff_eq, hr, if_false]
      exact ih hnd.2

theorem filter_pair_of_lookup_none (st : Store) (u t : Int) (h : st.lookup u = Option.none) :
    st.profiles.filter (fun p => p.Id == u || p.Id == t)
      = st.profiles.filter (fun p => p.Id == t) := by
  unfold Store.lookup at h
  rw [List.find?_eq_none] at h
  apply List.filter_congr
  intro p hp
  have := h p hp
  simp only [Bool.not_eq_true] at this
  simp [this]

theorem filter_pair_length_le_one (st : Store) (u t : Int)
    (hnd : (st.profiles.map (fun p => p.Id)).Nodup)
    (h : st.lookup u = Option.none ∨ st.lookup t = Option.none ∨ u = t) :
    (st.profiles.filter (fun p => p.Id == u || p.Id == t)).length ≤ 1 := by
  rcases h with h | h | h
  · rw [filter_pair_of_lookup_none st u t h]
    exact filter_id_length_le_one _ _ hnd
  · have : st.profiles.filter (fun p => p.Id == u || p.Id == t)
        = st.profiles.filter (fun p => p.Id == t || p.Id == u) := by
      apply List.filter_congr
      intro p _
      exact Bool.or_comm _ _
    rw [this, filter_pair_of_lookup_none st t u h]
    exact filter_id_length_le_one _ _ hnd
  · subst h
    simp only [Bool.or_self]
    exact filter_id_length_le_one _ _ hnd

/-- C9. When profile ids are unique, the read does not fail, and the swiper id or the target
id does not resolve or the two ids are equal, `Swipe` fails with `ErrSwipeRequestInvalid`,
returns `matched = false` and match id 0, and leaves the database as it was (it never opens a
transaction). -/
theorem Swipe_invalid_pair (clearTail : Bool) (f : Faults) (st : Store) (u t : Int)
    (liked : Bool) (hnd : (st.profiles.map (fun p => p.Id)).Nodup)
    (hq : f.query = Option.none) (hs : f.scan = Option.none)
    (h : st.lookup u = Option.none ∨ st.lookup t = Option.none ∨ u = t) :
    ∃ o, Swipe clearTail f st u t liked = some o ∧
      o.err = some DbError.ErrSwipeRequestInvalid ∧ o.matched = false ∧ o.matchId = 0 ∧
      o.store = st ∧ o.trace = [.query] := by
  have hlen := filter_pair_length_le_one st u t hnd h
  have hg : getSwipeProfiles f st u t = .error .ErrSwipeRequestInvalid := by
    unfold getSwipeProfiles
    simp only [hq, hs, Option.isSome_none, Bool.false_eq_true, if_false, Bool.false_and]
    rw [if_pos (by omega)]
  unfold Swipe
  rw [hg]
  exact ⟨_, rfl, rfl, rfl, rfl, rfl, rfl⟩


/-- C7 (as stated, refuted). In the store with profiles 1 and 2 and empty ledgers, after
profile 1 passes on profile 2 twice, its stored `SwipedOn` is `[2, 2]`: it contains 2 twice, and
the second pass changed what the first pass left (`[2]`). The pass branch never calls
`slices.Delete`, so the Go version plays no part. -/
theorem Swipe_pass_twice_duplicates :
    ∃ o1 o2 : SwipeOutcome,
      Swipe true Faults.none ⟨[⟨1, [], []⟩, ⟨2, [], []⟩], [], 0⟩ 1 2 false = some o1 ∧
      o1.err = Option.none ∧
      Swipe true Faults.none o1.store 1 2 false = some o2 ∧ o2.err = Option.none ∧
      o1.store.lookup 1 = some ⟨1, [2], []⟩ ∧
      o2.store.lookup 1 = some ⟨1, [2, 2], []⟩ ∧
      List.count (2 : Int) [2, 2] = 2 :=
  ⟨⟨false, 0, Option.none, ⟨[⟨1, [2], []⟩, ⟨2, [], []⟩], [], 0⟩,
      [.query, .begin, .exec, .commit, .rollback]⟩,
    ⟨false, 0, Option.none, ⟨[⟨1, [2, 2], []⟩, ⟨2, [], []⟩], [], 0⟩,
      [.query, .begin, .exec, .commit, .rollback]⟩,
    by decide, rfl, by decide, rfl, by decide, by decide, by decide⟩

/-- C7 (amended). For two distinct stored profiles and every prior state, each pass of `u` on
`t` appends `t` to the stored `SwipedOn` of `u` (list-append semantics): after two passes in
succession it is the prior list followed by `t` twice, so `t` occurs exactly two more times
than before. -/
theorem Swipe_pass_twice_appends (clearTail : Bool) (st : Store) (u t : Int)
    (pu pt : SwipeDetails) (hu : st.lookup u = some pu) (ht : st.lookup t = some pt)
    (hne : u ≠ t) :
    ∃ o1 o2, Swipe clearTail Faults.none st u t false = some o1 ∧ o1.err = Option.none ∧
      Swipe clearTail Faults.none o1.store u t false = some o2 ∧ o2.err = Option.none ∧
      o1.store.lookup u = some { pu with SwipedOn := pu.SwipedOn ++ [t] } ∧
      o2.store.lookup u = some { pu with SwipedOn := pu.SwipedOn ++ [t] ++ [t] } ∧
      (pu.SwipedOn ++ [t] ++ [t]).count t = pu.SwipedOn.count t + 2 := by
  have hui := (lookup_some_id hu).1
  have hti := (lookup_some_id ht).1
  have htu : ¬ pt.Id = u := by rw [hti]; exact Ne.symm hne
  have h1 := Swipe_resolved clearTail Faults.none st u t false pu pt hu ht hne rfl rfl
  rw [swipeWith_pass] at h1
  have hu1 : Store.lookup ⟨(Statement.updateSwipedOn (pu.SwipedOn ++ [t]) u).apply st.profiles,
      st.matchRows, st.matchSeq⟩ u = some { pu with SwipedOn := pu.SwipedOn ++ [t] } := by
    unfold Store.lookup at hu ⊢
    simp only [find?_apply, hu, Option.map_some']
    simp [Statement.onRow, hui]
  have ht1 : Store.lookup ⟨(Statement.updateSwipedOn (pu.SwipedOn ++ [t]) u).apply st.profiles,
      st.matchRows, st.matchSeq⟩ t = some pt := by
    unfold Store.lookup at ht ⊢
    simp only [find?_apply, ht, Option.map_some']
    simp [Statement.onRow, htu]
  have h2 := Swipe_resolved clearTail Faults.none _ u t false _ _ hu1 ht1 hne rfl rfl
  rw [swipeWith_pass] at h2
  refine ⟨_, _, h1, rfl, h2, rfl, hu1, ?_, ?_⟩
  · unfold Store.lookup at hu ⊢
    simp only [find?_apply, hu, Option.map_some']
    simp [Statement.onRow, hui]
  · simp [List.count_append]

/-- C4 (code evaluated at the failing input). Profile 1 has `SwipedYesBy = [2]` and likes
profile 2 (match case). The `SwipedYesBy` that `Swipe` persists for profile 1 is not the empty
list: it is `[0]` when `slices.Delete` zeroes the vacated slot (Go 1.22 and later) and `[2]`
when it does not (Go 1.21), because the slice returned by `slices.Delete` is discarded. -/
theorem Swipe_match_persists_vacated_slot :
    (Swipe true Faults.none ⟨[⟨1, [], [2]⟩, ⟨2, [], []⟩], [], 0⟩ 1 2 true).map
        (fun o => (o.matched, o.store.lookup 1)) = some (true, some ⟨1, [2], [0]⟩) ∧
    (Swipe false Faults.none ⟨[⟨1, [], [2]⟩, ⟨2, [], []⟩], [], 0⟩ 1 2 true).map
        (fun o => (o.matched, o.store.lookup 1)) = some (true, some ⟨1, [2], [2]⟩) := by
  constructor <;> decide


/-- Witness of `Swipe_matched_iff`: profile 1, liked earlier by profile 2, likes profile 2. -/
theorem Swipe_matched_iff_witness :
    ∃ o, Swipe true Faults.none ⟨[⟨1, [], [2]⟩, ⟨2, [], []⟩], [], 0⟩ 1 2 true = some o ∧
      o.err = Option.none ∧ (o.matched = true ↔ (true = true ∧ (2 : Int) ∈ [(2 : Int)])) :=
  Swipe_matched_iff true ⟨[⟨1, [], [2]⟩, ⟨2, [], []⟩], [], 0⟩ 1 2 true ⟨1, [], [2]⟩ ⟨2, [], []⟩
    rfl rfl (by decide)

/-- Witness of `Swipe_like_then_like_back`: profiles 1 and 2 with empty ledgers. -/
theorem Swipe_like_then_like_back_witness :
    ∃ o1 o2, Swipe true Faults.none ⟨[⟨1, [], []⟩, ⟨2, [], []⟩], [], 0⟩ 2 1 true = some o1 ∧
      o1.err = Option.none ∧ o1.matched = false ∧ o1.matchId = 0 ∧
      (swipeResponse o1.matched o1.matchId).jsonKeys = ["matched"] ∧
      Swipe true Faults.none o1.store 1 2 true = some o2 ∧
      o2.err = Option.none ∧ o2.matched = true ∧ o2.matchId ≠ 0 ∧
      (swipeResponse o2.matched o2.matchId).MatchId = o2.matchId ∧
      (swipeResponse o2.matched o2.matchId).jsonKeys = ["matched", "matchId"] :=
  Swipe_like_then_like_back true ⟨[⟨1, [], []⟩, ⟨2, [], []⟩], [], 0⟩ 1 2 ⟨1, [], []⟩ ⟨2, [], []⟩
    rfl rfl (by decide) (by decide)

/-- Witness of `Swipe_pending_like`: profile 1 likes profile 2, who has not liked 1. -/
theorem Swipe_pending_like_witness :
    ∃ o, Swipe true Faults.none ⟨[⟨1, [], []⟩, ⟨2, [], []⟩], [], 0⟩ 1 2 true = some o ∧
      o.err = Option.none ∧ o.matched = false ∧ o.matchId = 0 ∧
      o.store.matchRows = [] ∧
      o.store.lookup 1 = some ⟨1, [2], []⟩ ∧
      o.store.lookup 2 = some ⟨2, [], [1]⟩ ∧
      (∃ pu', o.store.lookup 1 = some pu' ∧ (2 : Int) ∈ pu'.SwipedOn) ∧
      (∃ pt', o.store.lookup 2 = some pt' ∧ (1 : Int) ∈ pt'.SwipedYesBy) :=
  Swipe_pending_like true ⟨[⟨1, [], []⟩, ⟨2, [], []⟩], [], 0⟩ 1 2 ⟨1, [], []⟩ ⟨2, [], []⟩
    rfl rfl (by decide) (by decide)

/-- Witness of `Swipe_target_frame`: a match-case swipe of profile 1 on profile 2. -/
theorem Swipe_target_frame_witness :
    ∃ o, Swipe true Faults.none ⟨[⟨1, [], [2]⟩, ⟨2, [1], []⟩], [], 0⟩ 1 2 true = some o ∧
      ((true = false ∨ (2 : Int) ∈ [(2 : Int)]) → o.store.lookup 2 = some ⟨2, [1], []⟩) ∧
      (∃ pt', o.store.lookup 2 = some pt' ∧ pt'.SwipedOn = [1]) :=
  Swipe_target_frame true Faults.none ⟨[⟨1, [], [2]⟩, ⟨2, [1], []⟩], [], 0⟩ 1 2 true
    ⟨1, [], [2]⟩ ⟨2, [1], []⟩ rfl rfl (by decide)

/-- Witness of `Swipe_invalid_pair`: the target id 3 is not stored. -/
theorem Swipe_invalid_pair_witness :
    ∃ o, Swipe true Faults.none ⟨[⟨1, [], []⟩, ⟨2, [], []⟩], [], 0⟩ 1 3 true = some o ∧
      o.err = some DbError.ErrSwipeRequestInvalid ∧ o.matched = false ∧ o.matchId = 0 ∧
      o.store = ⟨[⟨1, [], []⟩, ⟨2, [], []⟩], [], 0⟩ ∧ o.trace = [.query] :=
  Swipe_invalid_pair true Faults.none ⟨[⟨1, [], []⟩, ⟨2, [], []⟩], [], 0⟩ 1 3 true
    (by decide) rfl rfl (Or.inr (Or.inl rfl))

/-- Witness of `Swipe_match_insert_fails`: the insert of the match of 1 and 2 fails. -/
theorem Swipe_match_insert_fails_witness :
    ∃ o, Swipe true ⟨Option.none, Option.none, Option.none, Option.none, Option.none,
          some Failure.other, Option.none⟩
        ⟨[⟨1, [], [2]⟩, ⟨2, [1], []⟩], [], 0⟩ 1 2 true = some o ∧
      o.err = some DbError.ErrDatabaseError ∧ o.matched = false ∧ o.matchId = 0 ∧
      o.store = ⟨[⟨1, [], [2]⟩, ⟨2, [1], []⟩], [], 0⟩ ∧
      o.trace = [.query, .begin, .exec, .queryRow, .rollback] ∧
      TxEvent.commit ∉ o.trace :=
  Swipe_match_insert_fails true
    ⟨Option.none, Option.none, Option.none, Option.none, Option.none, some Failure.other,
      Option.none⟩
    ⟨[⟨1, [], [2]⟩, ⟨2, [1], []⟩], [], 0⟩ 1 2 ⟨1, [], [2]⟩ ⟨2, [1], []⟩
    rfl rfl (by decide) (by decide) rfl rfl rfl rfl

/-- Witness of `Swipe_pass_twice_appends`: profile 1 passes on profile 2 twice. -/
theorem Swipe_pass_twice_appends_witness :
    ∃ o1 o2, Swipe true Faults.none ⟨[⟨1, [], []⟩, ⟨2, [], []⟩], [], 0⟩ 1 2 false = some o1 ∧
      o1.err = Option.none ∧
      Swipe true Faults.none o1.store 1 2 false = some o2 ∧ o2.err = Option.none ∧
      o1.store.lookup 1 = some ⟨1, [2], []⟩ ∧
      o2.store.lookup 1 = some ⟨1, [2, 2], []⟩ ∧
      List.count (2 : Int) [2, 2] = 0 + 2 :=
  Swipe_pass_twice_appends true ⟨[⟨1, [], []⟩, ⟨2, [], []⟩], [], 0⟩ 1 2
    ⟨1, [], []⟩ ⟨2, [], []⟩ rfl rfl (by decide)

/-! ## The invariant of the ledgers and of the match table -/

theorem swipedIn_append {done : List Call} {a b : Int} (c : Call) (h : swipedIn done a b) :
    swipedIn (done ++ [c]) a b := by
  obtain ⟨d, hd, h1, h2⟩ := h
  exact ⟨d, List.mem_append_left _ hd, h1, h2⟩

theorem likedIn_append {done : List Call} {a b : Int} (c : Call) (h : likedIn done a b) :
    likedIn (done ++ [c]) a b := by
  obtain ⟨d, hd, h1, h2, h3⟩ := h
  exact ⟨d, List.mem_append_left _ hd, h1, h2, h3⟩

theorem swipedIn_of_likedIn {done : List Call} {a b : Int} (h : likedIn done a b) :
    swipedIn done a b := by
  obtain ⟨d, hd, h1, h2, _⟩ := h
  exact ⟨d, hd, h1, h2⟩

theorem swipedIn_last (done : List Call) (c : Call) :
    swipedIn (done ++ [c]) c.userId c.swipedUserId :=
  ⟨c, by simp, rfl, rfl⟩

theorem matchCount_eq_zero {st : Store} {a b : Int}
    (h : ∀ m ∈ st.matchRows, m.isPair a b = false) : st.matchCount a b = 0 := by
  unfold Store.matchCount
  rw [List.length_eq_zero, List.filter_eq_nil_iff]
  intro m hm
  rw [h m hm]
  simp

theorem matchCount_congr {st st' : Store} (h : st'.matchRows = st.matchRows) (a b : Int) :
    st'.matchCount a b = st.matchCount a b := by
  unfold Store.matchCount; rw [h]


theorem matchCount_of_append {st st' : Store} {m : MatchRow}
    (h : st'.matchRows = st.matchRows ++ [m]) (a b : Int) :
    st'.matchCount a b = st.matchCount a b + (if m.isPair a b = true then 1 else 0) := by
  unfold Store.matchCount
  rw [h]
  simp only [List.filter_append, List.length_append]
  by_cases hp : m.isPair a b = true
  · simp [List.filter_cons, hp]
  · simp [List.filter_cons, hp]

theorem LedgerInv_step_core {clearTail : Bool} {done : List Call} {st st' : Store} (c : Call)
    (hinv : LedgerInv clearTail done st)
    (hfresh : ¬ swipedIn done c.userId c.swipedUserId)
    (hrows : ∀ r' ∈ st'.profiles, ∀ x ∈ r'.SwipedYesBy, ¬ isVacated clearTail x →
      (∃ r ∈ st.profiles, r.Id = r'.Id ∧ x ∈ r.SwipedYesBy) ∨
      (x = c.userId ∧ r'.Id = c.swipedUserId ∧ c.liked = true ∧
        st'.matchRows = st.matchRows))
    (hmatch : st'.matchRows = st.matchRows ∨
      (∃ id pu, st'.matchRows = st.matchRows ++ [⟨id, c.userId, c.swipedUserId⟩] ∧
        pu ∈ st.profiles ∧ pu.Id = c.userId ∧ c.swipedUserId ∈ pu.SwipedYesBy)) :
    LedgerInv clearTail (done ++ [c]) st' := by
  have hno1 : ∀ m ∈ st.matchRows, ¬ (m.user1Id = c.userId ∧ m.user2Id = c.swipedUserId) := by
    intro m hm ⟨h1, h2⟩
    apply hfresh
    have := hinv.match_swiped m hm
    rw [h1, h2] at this
    exact this
  have hmem : ∀ m ∈ st'.matchRows, m ∈ st.matchRows ∨
      (m.user1Id = c.userId ∧ m.user2Id = c.swipedUserId ∧
        ∃ pu ∈ st.profiles, pu.Id = c.userId ∧ c.swipedUserId ∈ pu.SwipedYesBy) := by
    intro m hm
    rcases hmatch with h | ⟨id, pu, h, hpu, hid, hin⟩
    · left; rw [h] at hm; exact hm
    · rw [h, List.mem_append] at hm
      rcases hm with hm | hm
      · left; exact hm
      · right
        simp only [List.mem_singleton] at hm
        subst hm
        exact ⟨rfl, rfl, pu, hpu, hid, hin⟩
  refine ⟨?_, ?_, ?_, ?_, ?_⟩
  · intro m hm
    rcases hmem m hm with h | ⟨h1, h2, _⟩
    · exact swipedIn_append c (hinv.match_swiped m h)
    · rw [h1, h2]; exact swipedIn_last done c
  · intro r' hr' x hx hv
    rcases hrows r' hr' x hx hv with ⟨r, hr, hid, hxr⟩ | ⟨h1, h2, h3, _⟩
    · rw [← hid]
      exact likedIn_append c (hinv.yesBy_liked r hr x hxr hv)
    · rw [h1, h2]
      exact ⟨c, by simp, rfl, rfl, h3⟩
  · intro r' hr' x hx hv m hm ⟨hm1, hm2⟩
    rcases hrows r' hr' x hx hv with ⟨r, hr, hid, hxr⟩ | ⟨h1, h2, _, h4⟩
    · rcases hmem m hm with h | ⟨h1, h2, _⟩
      · exact hinv.yesBy_unmatched r hr x hxr hv m h ⟨hm1, by rw [hid]; exact hm2⟩
      · apply hfresh
        have := swipedIn_of_likedIn (hinv.yesBy_liked r hr x hxr hv)
        rw [hid, ← hm1, ← hm2, h1, h2] at this
        exact this
    · rw [h4] at hm
      exact hno1 m hm ⟨by rw [hm1, h1], by rw [hm2, h2]⟩
  · intro m hm hv
    rcases hmem m hm with h | ⟨h1, h2, pu, hpu, hid, hin⟩
    · exact swipedIn_append c (hinv.match_reciprocal m h hv)
    · rw [h2] at hv
      have := swipedIn_of_likedIn (hinv.yesBy_liked pu hpu _ hin hv)
      rw [hid] at this
      rw [h1, h2]
      exact swipedIn_append c this
  · intro a b
    rcases hmatch with h | ⟨id, pu, h, hpu, hid, hin⟩
    · rw [matchCount_congr h]; exact hinv.match_unique a b
    · rw [matchCount_of_append h]
      by_cases hp : (MatchRow.mk id c.userId c.swipedUserId).isPair a b = true
      · rw [if_pos hp]
        have hno2 : ∀ m ∈ st.matchRows,
            ¬ (m.user1Id = c.swipedUserId ∧ m.user2Id = c.userId) := by
          intro m hm ⟨h1, h2⟩
          by_cases hv : isVacated clearTail c.swipedUserId
          · by_cases hv2 : isVacated clearTail c.userId
            · have heq : c.userId = c.swipedUserId := by rw [hv.2, hv2.2]
              exact hno1 m hm ⟨by rw [h1, heq], by rw [h2, heq]⟩
            · apply hfresh
              have := hinv.match_reciprocal m hm (by rw [h2]; exact hv2)
              rw [h1, h2] at this
              exact this
          · exact hinv.yesBy_unmatched pu hpu _ hin hv m hm ⟨h1, by rw [h2, hid]⟩
        have hz : st.matchCount a b = 0 := by
          apply matchCount_eq_zero
          intro m hm
          rw [← Bool.not_eq_true]
          intro hmp
          simp only [MatchRow.isPair, Bool.or_eq_true, Bool.and_eq_true, beq_iff_eq] at hp hmp
          rcases hp with ⟨hp1, hp2⟩ | ⟨hp1, hp2⟩ <;> rcases hmp with ⟨q1, q2⟩ | ⟨q1, q2⟩
          · exact hno1 m hm ⟨by rw [q1, hp1], by rw [q2, hp2]⟩
          · exact hno2 m hm ⟨by rw [q1, hp2], by rw [q2, hp1]⟩
          · exact hno2 m hm ⟨by rw [q1, hp2], by rw [q2, hp1]⟩
          · exact hno1 m hm ⟨by rw [q1, hp1], by rw [q2, hp2]⟩
        rw [hz]
      · rw [if_neg hp]
        exact hinv.match_unique a b


theorem mem_apply {stmt : Statement} {rows : List SwipeDetails} {r' : SwipeDetails}
    (h : r' ∈ stmt.apply rows) : ∃ r ∈ rows, stmt.onRow r = r' := by
  unfold Statement.apply at h
  rw [List.mem_map] at h
  exact h

theorem Swipe_effect {clearTail : Bool} {st : Store} (c : Call) {o : SwipeOutcome}
    (h : Swipe clearTail c.faults st c.userId c.swipedUserId c.liked = some o)
    (he : o.err = Option.none) :
    (∀ r' ∈ o.store.profiles, ∀ x ∈ r'.SwipedYesBy, ¬ isVacated clearTail x →
      (∃ r ∈ st.profiles, r.Id = r'.Id ∧ x ∈ r.SwipedYesBy) ∨
      (x = c.userId ∧ r'.Id = c.swipedUserId ∧ c.liked = true ∧
        o.store.matchRows = st.matchRows)) ∧
    (o.store.matchRows = st.matchRows ∨
      (∃ id pu, o.store.matchRows = st.matchRows ++ [⟨id, c.userId, c.swipedUserId⟩] ∧
        pu ∈ st.profiles ∧ pu.Id = c.userId ∧ c.swipedUserId ∈ pu.SwipedYesBy)) := by
  obtain ⟨pu, pt, hu, ht, hw⟩ := Swipe_noerr_resolved h he
  obtain ⟨hui, hum⟩ := lookup_some_id hu
  obtain ⟨hti, htm⟩ := lookup_some_id ht
  obtain ⟨o', ho', hcases⟩ :=
    swipeWith_cases clearTail c.faults st c.userId c.swipedUserId c.liked pu pt
  rw [hw] at ho'
  injection ho' with ho'
  subst ho'
  constructor
  · intro r' hr' x hx hv
    rcases hcases with ⟨hp, _⟩ | ⟨_, _, _, _, stored, hst, hp, _⟩ | ⟨hl, _, _, _, hp, hmr⟩ |
      ⟨_, _, _, hp, _⟩
    · rw [hp] at hr'
      exact Or.inl ⟨r', hr', rfl, hx⟩
    · rw [hp] at hr'
      obtain ⟨r, hr, hrr⟩ := mem_apply hr'
      subst hrr
      by_cases hid : r.Id = c.userId
      · simp only [Statement.onRow, hid, if_true] at hx ⊢
        rcases hst x hx with h1 | h1
        · exact Or.inl ⟨pu, hum, hui, h1⟩
        · exact absurd h1 hv
      · simp only [Statement.onRow, hid, if_false] at hx ⊢
        exact Or.inl ⟨r, hr, rfl, hx⟩
    · rw [hp] at hr'
      obtain ⟨r1, hr1, hrr1⟩ := mem_apply hr'
      obtain ⟨r, hr, hrr⟩ := mem_apply hr1
      have hid1 : r1.Id = r.Id := by rw [← hrr]; exact onRow_Id _ _
      have hy1 : r1.SwipedYesBy = r.SwipedYesBy := by
        rw [← hrr]; simp only [Statement.onRow]; split <;> rfl
      subst hrr1
      rw [onRow_Id, hid1]
      by_cases hid : r1.Id = c.swipedUserId
      · simp only [Statement.onRow, hid, if_true, List.mem_append,
          List.mem_singleton] at hx
        rcases hx with hx | hx
        · exact Or.inl ⟨pt, htm, by rw [hti, ← hid1, hid], hx⟩
        · exact Or.inr ⟨hx, by rw [← hid1, hid], hl, hmr⟩
      · simp only [Statement.onRow, hid, if_false] at hx
        rw [hy1] at hx
        exact Or.inl ⟨r, hr, rfl, hx⟩
    · rw [hp] at hr'
      obtain ⟨r, hr, hrr⟩ := mem_apply hr'
      subst hrr
      have hy1 : ((Statement.updateSwipedOn (pu.SwipedOn ++ [c.swipedUserId]) c.userId).onRow
          r).SwipedYesBy = r.SwipedYesBy := by
        simp only [Statement.onRow]; split <;> rfl
      rw [hy1] at hx
      exact Or.inl ⟨r, hr, (onRow_Id _ _).symm, hx⟩
  · rcases hcases with ⟨_, hm⟩ | ⟨_, hin, _, _, stored, _, _, hm⟩ | ⟨_, _, _, _, _, hm⟩ |
      ⟨_, _, _, _, hm⟩
    · exact Or.inl hm
    · exact Or.inr ⟨_, pu, hm, hum, hui, hin⟩
    · exact Or.inl hm
    · exact Or.inl hm

theorem LedgerInv_step {clearTail : Bool} {done : List Call} {st : Store} (c : Call)
    {o : SwipeOutcome} (hinv : LedgerInv clearTail done st)
    (hfresh : ¬ swipedIn done c.userId c.swipedUserId)
    (h : Swipe clearTail c.faults st c.userId c.swipedUserId c.liked = some o)
    (he : o.err = Option.none) :
    LedgerInv clearTail (done ++ [c]) o.store :=
  LedgerInv_step_core c hinv hfresh (Swipe_effect c h he).1 (Swipe_effect c h he).2

theorem yesBy_liked_run (clearTail : Bool) :
    ∀ (calls done : List Call) (st st' : Store),
      (∀ r ∈ st.profiles, ∀ x ∈ r.SwipedYesBy, ¬ isVacated clearTail x →
        likedIn done x r.Id) →
      runSwipes clearTail st calls = some st' →
      ∀ r ∈ st'.profiles, ∀ x ∈ r.SwipedYesBy, ¬ isVacated clearTail x →
        likedIn (done ++ calls) x r.Id := by
  intro calls
  induction calls with
  | nil =>
    intro done st st' hinv hrun
    simp only [runSwipes, Option.some.injEq] at hrun
    subst hrun
    simpa using hinv
  | cons c cs ih =>
    intro done st st' hinv hrun
    simp only [runSwipes] at hrun
    cases hs : Swipe clearTail c.faults st c.userId c.swipedUserId c.liked with
    | none => rw [hs] at hrun; cases hrun
    | some o =>
      rw [hs] at hrun
      simp only at hrun
      by_cases he : o.err = Option.none
      · rw [if_pos he] at hrun
        have hstep : ∀ r ∈ o.store.profiles, ∀ x ∈ r.SwipedYesBy, ¬ isVacated clearTail x →
            likedIn (done ++ [c]) x r.Id := by
          intro r' hr' x hx hv
          rcases (Swipe_effect c hs he).1 r' hr' x hx hv with
            ⟨r, hr, hid, hxr⟩ | ⟨h1, h2, h3, _⟩
          · rw [← hid]
            exact likedIn_append c (hinv r hr x hxr hv)
          · rw [h1, h2]
            exact ⟨c, by simp, rfl, rfl, h3⟩
        have := ih (done ++ [c]) o.store st' hstep hrun
        simpa using this
      · rw [if_neg he] at hrun
        cases hrun

theorem LedgerInv_fresh (clearTail : Bool) (st : Store) (h : st.isFresh) :
    LedgerInv clearTail [] st := by
  obtain ⟨hl, hm⟩ := h
  refine ⟨?_, ?_, ?_, ?_, ?_⟩
  · intro m hmem; rw [hm] at hmem; simp at hmem
  · intro r hr x hx; rw [(hl r hr).2] at hx; simp at hx
  · intro r hr x hx; rw [(hl r hr).2] at hx; simp at hx
  · intro m hmem; rw [hm] at hmem; simp at hmem
  · intro a b; simp [Store.matchCount, hm]

theorem LedgerInv_run (clearTail : Bool) :
    ∀ (calls done : List Call) (st st' : Store), LedgerInv clearTail done st →
      noRepeat (done ++ calls) → runSwipes clearTail st calls = some st' →
      LedgerInv clearTail (done ++ calls) st' := by
  intro calls
  induction calls with
  | nil =>
    intro done st st' hinv _ hrun
    simp only [runSwipes, Option.some.injEq] at hrun
    subst hrun
    simpa using hinv
  | cons c cs ih =>
    intro done st st' hinv hnr hrun
    simp only [runSwipes] at hrun
    cases hs : Swipe clearTail c.faults st c.userId c.swipedUserId c.liked with
    | none => rw [hs] at hrun; cases hrun
    | some o =>
      rw [hs] at hrun
      simp only at hrun
      by_cases he : o.err = Option.none
      · rw [if_pos he] at hrun
        have hfresh : ¬ swipedIn done c.userId c.swipedUserId := by
          rintro ⟨d, hd, h1, h2⟩
          unfold noRepeat at hnr
          rw [List.map_append, List.nodup_append] at hnr
          have hd' : d.pair ∈ done.map Call.pair := List.mem_map_of_mem Call.pair hd
          have hc' : d.pair ∈ (c :: cs).map Call.pair := by
            have hdc : d.pair = c.pair := by simp [Call.pair, h1, h2]
            rw [hdc]
            exact List.mem_map_of_mem Call.pair (List.mem_cons_self c cs)
          exact hnr.2.2 hd' hc'
        have hstep := LedgerInv_step c hinv hfresh hs he
        have hnr' : noRepeat ((done ++ [c]) ++ cs) := by
          simpa using hnr
        have := ih (done ++ [c]) o.store st' hstep hnr' hrun
        simpa using this
      · rw [if_neg he] at hrun
        cases hrun

/-! ## Match uniqueness and pending likes along sequences of calls -/

/-- C3 (as stated, refuted). From the store with profiles 1 and 2, empty ledgers and no match,
the four successful like swipes 1 on 2, 2 on 1, 1 on 2, 2 on 1 leave two rows of `matches` for
the pair of 1 and 2, whether `slices.Delete` zeroes the vacated slot or not. -/
theorem runSwipes_two_matches_for_a_pair :
    (runSwipes true ⟨[⟨1, [], []⟩, ⟨2, [], []⟩], [], 0⟩
      [⟨Faults.none, 1, 2, true⟩, ⟨Faults.none, 2, 1, true⟩, ⟨Faults.none, 1, 2, true⟩,
        ⟨Faults.none, 2, 1, true⟩]).map (fun st => (st.matchRows, st.matchCount 1 2))
      = some ([⟨1, 2, 1⟩, ⟨2, 2, 1⟩], 2) ∧
    (runSwipes false ⟨[⟨1, [], []⟩, ⟨2, [], []⟩], [], 0⟩
      [⟨Faults.none, 1, 2, true⟩, ⟨Faults.none, 2, 1, true⟩, ⟨Faults.none, 1, 2, true⟩,
        ⟨Faults.none, 2, 1, true⟩]).map (fun st => (st.matchRows, st.matchCount 1 2))
      = some ([⟨1, 2, 1⟩, ⟨2, 2, 1⟩], 2) := by
  constructor <;> decide

/-- C3 (amended). In every state reached from a store with empty ledgers and no match by a
finite sequence of successful `Swipe` calls made one after the other, whatever database calls
fail in them, in which no ordered pair (swiper, target) is swiped more than once, there is at
most one row of `matches` for each unordered pair. -/
theorem runSwipes_match_unique (clearTail : Bool) (st0 : Store) (h0 : st0.isFresh)
    (calls : List Call) (hnr : noRepeat calls) (st : Store)
    (hrun : runSwipes clearTail st0 calls = some st) (a b : Int) :
    st.matchCount a b ≤ 1 := by
  have h := LedgerInv_run clearTail calls [] st0 st (LedgerInv_fresh clearTail st0 h0)
    (by simpa using hnr) hrun
  exact h.match_unique a b

/-- Witness of `runSwipes_match_unique`: 1 likes 2, then 2 likes 1. -/
theorem runSwipes_match_unique_witness :
    runSwipes true ⟨[⟨1, [], []⟩, ⟨2, [], []⟩], [], 0⟩
        [⟨Faults.none, 1, 2, true⟩, ⟨Faults.none, 2, 1, true⟩]
      = some ⟨[⟨1, [2], []⟩, ⟨2, [1], [0]⟩], [⟨1, 2, 1⟩], 1⟩ ∧
    Store.matchCount ⟨[⟨1, [2], []⟩, ⟨2, [1], [0]⟩], [⟨1, 2, 1⟩], 1⟩ 1 2 ≤ 1 :=
  ⟨by decide,
    runSwipes_match_unique true ⟨[⟨1, [], []⟩, ⟨2, [], []⟩], [], 0⟩
      (by simp [Store.isFresh])
      [⟨Faults.none, 1, 2, true⟩, ⟨Faults.none, 2, 1, true⟩]
      (by unfold noRepeat; decide) _ (by decide) 1 2⟩

/-- C8 (as stated, refuted). From the store with profiles 1 and 2, empty ledgers and no match,
after the successful like swipes 1 on 2, 2 on 1 (a match) and 1 on 2 again, id 1 is in the
`SwipedYesBy` of profile 2 although a row of `matches` exists for the pair of 1 and 2, whether
`slices.Delete` zeroes the vacated slot or not. And after the first two of these swipes alone,
with `slices.Delete` zeroing the vacated slot, the `SwipedYesBy` of profile 2 holds the entry
`0`, although no swipe was made by an id 0. -/
theorem runSwipes_pending_like_with_match :
    (runSwipes true ⟨[⟨1, [], []⟩, ⟨2, [], []⟩], [], 0⟩
      [⟨Faults.none, 1, 2, true⟩, ⟨Faults.none, 2, 1, true⟩, ⟨Faults.none, 1, 2, true⟩]).map
        (fun st => ((st.lookup 2).map (fun p => p.SwipedYesBy), st.matchRows))
      = some (some [0, 1], [⟨1, 2, 1⟩]) ∧
    (runSwipes false ⟨[⟨1, [], []⟩, ⟨2, [], []⟩], [], 0⟩
      [⟨Faults.none, 1, 2, true⟩, ⟨Faults.none, 2, 1, true⟩, ⟨Faults.none, 1, 2, true⟩]).map
        (fun st => ((st.lookup 2).map (fun p => p.SwipedYesBy), st.matchRows))
      = some (some [1, 1], [⟨1, 2, 1⟩]) ∧
    (runSwipes true ⟨[⟨1, [], []⟩, ⟨2, [], []⟩], [], 0⟩
      [⟨Faults.none, 1, 2, true⟩, ⟨Faults.none, 2, 1, true⟩]).map
        (fun st => ((st.lookup 2).map (fun p => p.SwipedYesBy), st.matchRows))
      = some (some [0], [⟨1, 2, 1⟩]) := by
  refine ⟨?_, ?_, ?_⟩ <;> decide

/-! ## Errors returned by `Swipe` -/

theorem getSwipeProfiles_error {f : Faults} {st : Store} {u t : Int} {e : DbError}
    (h : getSwipeProfiles f st u t = .error e) :
    e = DbError.ErrDatabaseError ∨ e = DbError.ErrSwipeRequestInvalid := by
  rcases getSwipeProfiles_cases f st u t with ⟨e', he, hor⟩ | ⟨_, _, _, hok⟩
  · rw [he] at h
    injection h with h
    rw [← h]
    exact hor
  · rw [hok] at h; cases h

theorem swipeWith_err (clearTail : Bool) (f : Faults) (st : Store) (u t : Int)
    (liked : Bool) (pu pt : SwipeDetails) (o : SwipeOutcome)
    (h : swipeWith clearTail f st u t liked pu pt = some o) :
    o.err = Option.none ∨ o.err = some DbError.ErrDatabaseError := by
  unfold swipeWith at h
  simp only at h
  split at h
  · injection h with h; subst h; exact Or.inr rfl
  · split at h
    · split at h
      · cases h
      · split at h
        · injection h with h; subst h; exact Or.inr rfl
        · injection h with h; subst h; exact Or.inl rfl
    · split at h
      · injection h with h; subst h; exact Or.inl rfl
      · injection h with h; subst h; exact Or.inl rfl

theorem Swipe_err (clearTail : Bool) (f : Faults) (st : Store) (u t : Int)
    (liked : Bool) (o : SwipeOutcome) (h : Swipe clearTail f st u t liked = some o) :
    o.err = Option.none ∨ o.err = some DbError.ErrDatabaseError ∨
      o.err = some DbError.ErrSwipeRequestInvalid := by
  by_cases he : o.err = Option.none
  · exact Or.inl he
  · right
    unfold Swipe at h
    cases hg : getSwipeProfiles f st u t with
    | error e =>
      rw [hg] at h
      injection h with h
      subst h
      rcases getSwipeProfiles_error hg with h1 | h1
      · exact Or.inl (by rw [h1])
      · exact Or.inr (by rw [h1])
    | ok rows =>
      rw [hg] at h
      simp only at h
      split at h
      · have := swipeWith_err clearTail f st u t liked _ _ o h
        rcases this with h1 | h1
        · exact absurd h1 he
        · exact Or.inl h1
      · cases h


/-- C11 (code evaluated at failing inputs). `Swipe` drops the errors of `tx.ExecEx` and of
`tx.CommitEx`. With profiles 1 and 2: a pass swipe whose `UPDATE` fails, a pending-like swipe
whose second `UPDATE` fails, and a pending-like swipe whose commit fails all return
`(false, 0, nil)`; a match-case swipe whose commit fails returns `(true, 1, nil)` although no
row of `matches` is committed. In all four the committed rows are those before the call. -/
theorem Swipe_swallows_write_failures :
    Swipe true ⟨Option.none, Option.none, Option.none, some Failure.other, Option.none,
        Option.none, Option.none⟩ ⟨[⟨1, [], []⟩, ⟨2, [], []⟩], [], 0⟩ 1 2 false
      = some ⟨false, 0, Option.none, ⟨[⟨1, [], []⟩, ⟨2, [], []⟩], [], 0⟩,
          [.query, .begin, .exec, .commit, .rollback]⟩ ∧
    Swipe true ⟨Option.none, Option.none, Option.none, Option.none, some Failure.other,
        Option.none, Option.none⟩ ⟨[⟨1, [], []⟩, ⟨2, [], []⟩], [], 0⟩ 1 2 true
      = some ⟨false, 0, Option.none, ⟨[⟨1, [], []⟩, ⟨2, [], []⟩], [], 0⟩,
          [.query, .begin, .exec, .exec, .commit, .rollback]⟩ ∧
    Swipe true ⟨Option.none, Option.none, Option.none, Option.none, Option.none,
        Option.none, some Failure.other⟩ ⟨[⟨1, [], []⟩, ⟨2, [], []⟩], [], 0⟩ 1 2 true
      = some ⟨false, 0, Option.none, ⟨[⟨1, [], []⟩, ⟨2, [], []⟩], [], 0⟩,
          [.query, .begin, .exec, .exec, .commit, .rollback]⟩ ∧
    Swipe true ⟨Option.none, Option.none, Option.none, Option.none, Option.none,
        Option.none, some Failure.other⟩ ⟨[⟨1, [], [2]⟩, ⟨2, [1], []⟩], [], 0⟩ 1 2 true
      = some ⟨true, 1, Option.none, ⟨[⟨1, [], [2]⟩, ⟨2, [1], []⟩], [], 1⟩,
          [.query, .begin, .exec, .queryRow, .commit, .rollback]⟩ := by
  refine ⟨?_, ?_, ?_, ?_⟩ <;> decide

/-- C12 (code evaluated at failing inputs). When the read of the two ledgers exceeds the
deadline in `QueryEx`, `Swipe` returns `ErrDatabaseError`, which is not `ErrQueryTimedOut`;
when the `UPDATE` of a pass swipe exceeds the deadline, `Swipe` returns no error at all; and
when the deadline is exceeded while the rows are read (`rows.Next()` stops, before or after the
first row), `Swipe` returns `ErrSwipeRequestInvalid` for a pair of stored profiles. -/
theorem Swipe_deadline_not_reported :
    Swipe true ⟨some Failure.deadlineExceeded, Option.none, Option.none, Option.none,
        Option.none, Option.none, Option.none⟩ ⟨[⟨1, [], []⟩, ⟨2, [], []⟩], [], 0⟩ 1 2 true
      = some ⟨false, 0, some DbError.ErrDatabaseError, ⟨[⟨1, [], []⟩, ⟨2, [], []⟩], [], 0⟩,
          [.query]⟩ ∧
    DbError.ErrDatabaseError ≠ DbError.ErrQueryTimedOut ∧
    Swipe true ⟨Option.none, Option.none, Option.none, some Failure.deadlineExceeded,
        Option.none, Option.none, Option.none⟩ ⟨[⟨1, [], []⟩, ⟨2, [], []⟩], [], 0⟩ 1 2 false
      = some ⟨false, 0, Option.none, ⟨[⟨1, [], []⟩, ⟨2, [], []⟩], [], 0⟩,
          [.query, .begin, .exec, .commit, .rollback]⟩ ∧
    Swipe true ⟨Option.none, some (RowFailure.next Failure.deadlineExceeded false),
        Option.none, Option.none, Option.none, Option.none, Option.none⟩
        ⟨[⟨1, [], []⟩, ⟨2, [], []⟩], [], 0⟩ 1 2 true
      = some ⟨false, 0, some DbError.ErrSwipeRequestInvalid,
          ⟨[⟨1, [], []⟩, ⟨2, [], []⟩], [], 0⟩, [.query]⟩ ∧
    Swipe true ⟨Option.none, some (RowFailure.next Failure.deadlineExceeded true),
        Option.none, Option.none, Option.none, Option.none, Option.none⟩
        ⟨[⟨1, [], []⟩, ⟨2, [], []⟩], [], 0⟩ 1 2 true
      = some ⟨false, 0, some DbError.ErrSwipeRequestInvalid,
          ⟨[⟨1, [], []⟩, ⟨2, [], []⟩], [], 0⟩, [.query]⟩ := by
  refine ⟨?_, ?_, ?_, ?_, ?_⟩ <;> decide

/-- C13 (as stated, refuted). With profile 1 holding empty ledgers and profile 2 holding
`SwipedYesBy = [1]`, a like of 1 on 2 returns `matched = false` with match id 0, whether
`slices.Delete` zeroes the vacated slot or not. -/
theorem Swipe_example_not_matched :
    (Swipe true Faults.none ⟨[⟨1, [], []⟩, ⟨2, [], [1]⟩], [], 0⟩ 1 2 true).map
        (fun o => (o.matched, o.matchId)) = some (false, 0) ∧
    (Swipe false Faults.none ⟨[⟨1, [], []⟩, ⟨2, [], [1]⟩], [], 0⟩ 1 2 true).map
        (fun o => (o.matched, o.matchId)) = some (false, 0) := by
  constructor <;> decide

/-- C13 (amended). With profile 1 holding empty ledgers and profile 2 holding
`SwipedYesBy = [1]`, a like of 1 on 2 is a pending like: it returns `(false, 0, nil)`, adds
no row to `matches`, and afterwards profile 1 has `SwipedOn = [2]` and an unchanged (empty)
`SwipedYesBy`, while profile 2 has `SwipedYesBy = [1, 1]`. -/
theorem Swipe_example_pending :
    Swipe true Faults.none ⟨[⟨1, [], []⟩, ⟨2, [], [1]⟩], [], 0⟩ 1 2 true
      = some ⟨false, 0, Option.none, ⟨[⟨1, [2], []⟩, ⟨2, [], [1, 1]⟩], [], 0⟩,
          [.query, .begin, .exec, .exec, .commit, .rollback]⟩ ∧
    Swipe false Faults.none ⟨[⟨1, [], []⟩, ⟨2, [], [1]⟩], [], 0⟩ 1 2 true
      = some ⟨false, 0, Option.none, ⟨[⟨1, [2], []⟩, ⟨2, [], [1, 1]⟩], [], 0⟩,
          [.query, .begin, .exec, .exec, .commit, .rollback]⟩ := by
  constructor <;> decide

/-! ## Read phase and write phase of `Swipe` -/

theorem Swipe_eq_read_then_write (clearTail : Bool) (f : Faults) (st : Store) (u t : Int)
    (liked : Bool) :
    Swipe clearTail f st u t liked =
      match swipeRead f st u t with
      | some (.ok (pu, pt)) => swipeWith clearTail f st u t liked pu pt
      | some (.error e) => some ⟨false, 0, some e, st, [.query]⟩
      | Option.none => Option.none := by
  unfold Swipe swipeRead
  cases getSwipeProfiles f st u t with
  | error e => rfl
  | ok rows =>
    simp only
    cases goIndex rows (slicesIndexFunc rows (fun p => p.Id == u)) with
    | none => rfl
    | some pu =>
      cases goIndex rows (slicesIndexFunc rows (fun p => p.Id == t)) with
      | none => rfl
      | some pt => rfl

theorem swipeRead_resolved (f : Faults) (st : Store) (u t : Int)
    (pu pt : SwipeDetails) (hu : st.lookup u = some pu) (ht : st.lookup t = some pt)
    (hne : u ≠ t) (hq : f.query = Option.none) (hs : f.scan = Option.none) :
    swipeRead f st u t = some (.ok (pu, pt)) := by
  have hlen := two_le_filter_length hu ht hne
  have hg : getSwipeProfiles f st u t
      = .ok (st.profiles.filter (fun p => p.Id == u || p.Id == t)) := by
    unfold getSwipeProfiles
    simp only [hq, hs, Option.isSome_none, Bool.false_eq_true, if_false, Bool.false_and]
    rw [if_neg (by omega)]
  unfold swipeRead
  rw [hg]
  simp only [goIndex_slicesIndexFunc, find?_filter_left, find?_filter_right]
  unfold Store.lookup at hu ht
  rw [hu, ht]


/-- C14 (as stated, refuted). With profiles 1 and 2 holding empty ledgers, in the interleaving of
the like swipes 1 on 2 and 2 on 1 in which both calls read before either writes, both calls
return `matched = false`: both likes are recorded as pending (2 in the `SwipedYesBy` of 1, and 1
in that of 2) and no row of `matches` is written. In each call the read (`query`) precedes
`begin`, so it is not part of the transaction. -/
theorem swipeBothReadFirst_neither_matches :
    swipeBothReadFirst true ⟨[⟨1, [], []⟩, ⟨2, [], []⟩], [], 0⟩ 1 2
      = some (⟨false, 0, Option.none, ⟨[⟨1, [2], []⟩, ⟨2, [], [1]⟩], [], 0⟩,
                [.query, .begin, .exec, .exec, .commit, .rollback]⟩,
              ⟨false, 0, Option.none, ⟨[⟨1, [2], [2]⟩, ⟨2, [1], [1]⟩], [], 0⟩,
                [.query, .begin, .exec, .exec, .commit, .rollback]⟩) ∧
    swipeBothReadFirst false ⟨[⟨1, [], []⟩, ⟨2, [], []⟩], [], 0⟩ 1 2
      = some (⟨false, 0, Option.none, ⟨[⟨1, [2], []⟩, ⟨2, [], [1]⟩], [], 0⟩,
                [.query, .begin, .exec, .exec, .commit, .rollback]⟩,
              ⟨false, 0, Option.none, ⟨[⟨1, [2], [2]⟩, ⟨2, [1], [1]⟩], [], 0⟩,
                [.query, .begin, .exec, .exec, .commit, .rollback]⟩) := by
  constructor <;> decide

theorem find?_apply_some (stmt : Statement) {rows : List SwipeDetails} {k : Int}
    {p : SwipeDetails} (h : rows.find? (fun q => q.Id == k) = some p) :
    (stmt.apply rows).find? (fun q => q.Id == k) = some (stmt.onRow p) := by
  rw [find?_apply, h]; rfl

/-- C14 (amended). For two distinct stored profiles `a` and `b`, neither in the other's
`SwipedYesBy`, and no failing database call. Run one after the other, the like swipes `a` on `b`
and `b` on `a` return `matched = false` for the first and `matched = true` for the second, so
exactly one of them matches, and exactly one row is added to `matches`. The read of the ledgers
is issued before the transaction is begun (the trace of a call starts with `query`, then
`begin`), and in the interleaving in which both calls read before either writes, both return
`matched = false`, no row is added to `matches`, and each profile ends with the other in its
`SwipedOn` and in its `SwipedYesBy`. -/
theorem Swipe_pair_of_likes (clearTail : Bool) (st : Store) (a b : Int)
    (pa pb : SwipeDetails) (ha : st.lookup a = some pa) (hb : st.lookup b = some pb)
    (hne : a ≠ b) (hab : b ∉ pa.SwipedYesBy) (hba : a ∉ pb.SwipedYesBy) :
    (∃ o1 o2, Swipe clearTail Faults.none st a b true = some o1 ∧
      Swipe clearTail Faults.none o1.store b a true = some o2 ∧
      o1.matched = false ∧ o2.matched = true ∧
      o1.trace = [.query, .begin, .exec, .exec, .commit, .rollback] ∧
      o2.trace = [.query, .begin, .exec, .queryRow, .commit, .rollback] ∧
      o2.store.matchRows = st.matchRows ++ [⟨o2.matchId, b, a⟩]) ∧
    (∃ o1 o2, swipeBothReadFirst clearTail st a b = some (o1, o2) ∧
      o1.matched = false ∧ o2.matched = false ∧ o1.err = Option.none ∧
      o2.err = Option.none ∧ o2.store.matchRows = st.matchRows ∧
      o2.store.lookup a
        = some ⟨pa.Id, pa.SwipedOn ++ [b], pa.SwipedYesBy ++ [b]⟩ ∧
      o2.store.lookup b
        = some ⟨pb.Id, pb.SwipedOn ++ [a], pb.SwipedYesBy ++ [a]⟩) := by
  have hai := (lookup_some_id ha).1
  have hbi := (lookup_some_id hb).1
  have hab' : ¬ pa.Id = b := by rw [hai]; exact hne
  have hba' : ¬ pb.Id = a := by rw [hbi]; exact Ne.symm hne
  have ha0 := ha
  have hb0 := hb
  unfold Store.lookup at ha0 hb0
  -- the store after the pending like of `a` on `b`
  have ha1 := find?_apply_some (Statement.updateSwipedYesBy (pb.SwipedYesBy ++ [a]) b)
    (find?_apply_some (Statement.updateSwipedOn (pa.SwipedOn ++ [b]) a) ha0)
  have hb1 := find?_apply_some (Statement.updateSwipedYesBy (pb.SwipedYesBy ++ [a]) b)
    (find?_apply_some (Statement.updateSwipedOn (pa.SwipedOn ++ [b]) a) hb0)
  constructor
  · have h1 := Swipe_resolved clearTail Faults.none st a b true pa pb ha hb hne rfl rfl
    rw [swipeWith_pending clearTail st a b pa pb hab] at h1
    have hmem : a ∈ ((Statement.updateSwipedYesBy (pb.SwipedYesBy ++ [a]) b).onRow
        ((Statement.updateSwipedOn (pa.SwipedOn ++ [b]) a).onRow pb)).SwipedYesBy := by
      simp [Statement.onRow, hbi, Ne.symm hne]
    have h2 := Swipe_resolved clearTail Faults.none
      ⟨(Statement.updateSwipedYesBy (pb.SwipedYesBy ++ [a]) b).apply
        ((Statement.updateSwipedOn (pa.SwipedOn ++ [b]) a).apply st.profiles),
        st.matchRows, st.matchSeq⟩ b a true _ _ hb1 ha1 (Ne.symm hne) rfl rfl
    obtain ⟨kept, stored, _, _, h⟩ := swipeWith_match clearTail
      ⟨(Statement.updateSwipedYesBy (pb.SwipedYesBy ++ [a]) b).apply
        ((Statement.updateSwipedOn (pa.SwipedOn ++ [b]) a).apply st.profiles),
        st.matchRows, st.matchSeq⟩ b a _
      ((Statement.updateSwipedYesBy (pb.SwipedYesBy ++ [a]) b).onRow
        ((Statement.updateSwipedOn (pa.SwipedOn ++ [b]) a).onRow pa)) hmem
    rw [h] at h2
    exact ⟨_, _, h1, h2, rfl, rfl, rfl, rfl, rfl⟩
  · have hr1 := swipeRead_resolved Faults.none st a b pa pb ha hb hne rfl rfl
    have hr2 := swipeRead_resolved Faults.none st b a pb pa hb ha (Ne.symm hne) rfl rfl
    unfold swipeBothReadFirst
    rw [hr1, hr2]
    simp only [swipeWith_pending clearTail st a b pa pb hab,
      swipeWith_pending clearTail _ b a pb pa hba]
    refine ⟨_, _, rfl, rfl, rfl, rfl, rfl, rfl, ?_, ?_⟩
    · unfold Store.lookup
      simp only [find?_apply, ha0, Option.map_some']
      simp [Statement.onRow, hai, hab', hne]
    · unfold Store.lookup
      simp only [find?_apply, hb0, Option.map_some']
      simp [Statement.onRow, hbi, hba', Ne.symm hne]

/-- Witness of `Swipe_pair_of_likes`: profiles 1 and 2 with empty ledgers. -/
theorem Swipe_pair_of_likes_witness :
    (∃ o1 o2, Swipe true Faults.none ⟨[⟨1, [], []⟩, ⟨2, [], []⟩], [], 0⟩ 1 2 true = some o1 ∧
      Swipe true Faults.none o1.store 2 1 true = some o2 ∧
      o1.matched = false ∧ o2.matched = true ∧
      o1.trace = [.query, .begin, .exec, .exec, .commit, .rollback] ∧
      o2.trace = [.query, .begin, .exec, .queryRow, .commit, .rollback] ∧
      o2.store.matchRows = [] ++ [⟨o2.matchId, 2, 1⟩]) ∧
    (∃ o1 o2, swipeBothReadFirst true ⟨[⟨1, [], []⟩, ⟨2, [], []⟩], [], 0⟩ 1 2
        = some (o1, o2) ∧
      o1.matched = false ∧ o2.matched = false ∧ o1.err = Option.none ∧
      o2.err = Option.none ∧ o2.store.matchRows = [] ∧
      o2.store.lookup 1 = some ⟨1, [] ++ [2], [] ++ [2]⟩ ∧
      o2.store.lookup 2 = some ⟨2, [] ++ [1], [] ++ [1]⟩) :=
  Swipe_pair_of_likes true ⟨[⟨1, [], []⟩, ⟨2, [], []⟩], [], 0⟩ 1 2 ⟨1, [], []⟩ ⟨2, [], []⟩
    rfl rfl (by decide) (by decide) (by decide)

/-! ## Error responses and ordering of discover profiles -/

/-- C15. For every error value, `writeErrorResponse` writes status 400 exactly for
`ErrValidationError` and `ErrInvalidRequest`, status 401 exactly for `ErrMustBeLoggedIn`, and
status 500 for every other error, among them the store's `ErrLoginFailed`,
`ErrSwipeRequestInvalid` and `ErrDatabaseError`; the body always is the JSON object whose only
field `error` holds `err.Error()`. -/
theorem writeErrorResponse_status (err : GoError) :
    ((writeErrorResponse err).status = 400 ↔
      (err = .server .ErrValidationError ∨ err = .server .ErrInvalidRequest)) ∧
    ((writeErrorResponse err).status = 401 ↔ err = .server .ErrMustBeLoggedIn) ∧
    ((writeErrorResponse err).status = 500 ↔
      (err ≠ .server .ErrValidationError ∧ err ≠ .server .ErrInvalidRequest ∧
        err ≠ .server .ErrMustBeLoggedIn)) ∧
    (writeErrorResponse (.db .ErrLoginFailed)).status = 500 ∧
    (writeErrorResponse (.db .ErrSwipeRequestInvalid)).status = 500 ∧
    (writeErrorResponse (.db .ErrDatabaseError)).status = 500 ∧
    (writeErrorResponse err).body = [("error", err.Error)] ∧
    (writeErrorResponse err).contentType = "application/json" := by
  refine ⟨?_, ?_, ?_, rfl, rfl, rfl, rfl, rfl⟩
  · cases err with
    | server e => cases e <;> simp [writeErrorResponse, writeJsonResponse]
    | db e => simp [writeErrorResponse, writeJsonResponse]
    | other msg => simp [writeErrorResponse, writeJsonResponse]
  · cases err with
    | server e => cases e <;> simp [writeErrorResponse, writeJsonResponse]
    | db e => simp [writeErrorResponse, writeJsonResponse]
    | other msg => simp [writeErrorResponse, writeJsonResponse]
  · cases err with
    | server e => cases e <;> simp [writeErrorResponse, writeJsonResponse]
    | db e => simp [writeErrorResponse, writeJsonResponse]
    | other msg => simp [writeErrorResponse, writeJsonResponse]

theorem sortSlice_perm {α : Type} (less : α → α → Bool) (x : List α) :
    (sortSlice less x).Perm x :=
  List.perm_insertionSort _ x

theorem sortSlice_pairwise (key : DiscoverProfile → Int) (x : List DiscoverProfile) :
    (sortSlice (fun a b => decide (key a < key b)) x).Pairwise
      (fun a b => key a ≤ key b) := by
  have htotal : IsTotal DiscoverProfile
      (fun a b => (fun a b => decide (key a < key b)) b a = false) :=
    ⟨fun a b => by
      simp only [decide_eq_false_iff_not, not_lt]
      exact le_total (key a) (key b)⟩
  have htrans : IsTrans DiscoverProfile
      (fun a b => (fun a b => decide (key a < key b)) b a = false) :=
    ⟨fun a b c h1 h2 => by
      simp only [decide_eq_false_iff_not, not_lt] at h1 h2 ⊢
      exact le_trans h1 h2⟩
  have h := List.sorted_insertionSort
    (fun a b => (fun a b => decide (key a < key b)) b a = false) x
  unfold sortSlice
  refine List.Pairwise.imp ?_ h
  intro a b hab
  simpa using hab


/-- C16. For every list of discover profiles and every location, and whatever
`getDistanceInKm` computes, the list after `sortProfilesByLocation` is a permutation of the
input with each `DistanceFromMe` overwritten by `getDistanceInKm` from the location to the
profile's coordinates; every profile of the result carries that distance; and the result is
ordered by non-decreasing `DistanceFromMe`, pairwise and by index. -/
theorem sortProfilesByLocation_sorted_perm
    (getDistanceInKm : Float → Float → Float → Float → Int)
    (profiles : List DiscoverProfile) (location : Location) :
    (sortProfilesByLocation getDistanceInKm profiles location).Perm
      (profiles.map (fun p =>
        { p with DistanceFromMe := getDistanceInKm location.Lat location.Long p.Lat p.Long })) ∧
    (∀ p ∈ sortProfilesByLocation getDistanceInKm profiles location,
      p.DistanceFromMe = getDistanceInKm location.Lat location.Long p.Lat p.Long) ∧
    (sortProfilesByLocation getDistanceInKm profiles location).Pairwise
      (fun p q => p.DistanceFromMe ≤ q.DistanceFromMe) ∧
    (sortProfilesByLocation getDistanceInKm profiles location).length = profiles.length ∧
    (∀ (i j : Nat) (hij : i < j)
        (hj : j < (sortProfilesByLocation getDistanceInKm profiles location).length),
      ((sortProfilesByLocation getDistanceInKm profiles location).get
          ⟨i, Nat.lt_trans hij hj⟩).DistanceFromMe
        ≤ ((sortProfilesByLocation getDistanceInKm profiles location).get
          ⟨j, hj⟩).DistanceFromMe) := by
  have hperm : (sortProfilesByLocation getDistanceInKm profiles location).Perm
      (profiles.map (fun p =>
        { p with DistanceFromMe :=
          getDistanceInKm location.Lat location.Long p.Lat p.Long })) := by
    unfold sortProfilesByLocation
    exact sortSlice_perm _ _
  have hpw : (sortProfilesByLocation getDistanceInKm profiles location).Pairwise
      (fun p q => p.DistanceFromMe ≤ q.DistanceFromMe) := by
    unfold sortProfilesByLocation
    exact sortSlice_pairwise (fun p => p.DistanceFromMe) _
  refine ⟨hperm, ?_, hpw, ?_, ?_⟩
  · intro p hp
    have hp' := hperm.mem_iff.mp hp
    rw [List.mem_map] at hp'
    obtain ⟨q, _, hq⟩ := hp'
    rw [← hq]
  · rw [hperm.length_eq, List.length_map]
  · intro i j hij hj
    exact List.pairwise_iff_get.mp hpw ⟨i, Nat.lt_trans hij hj⟩ ⟨j, hj⟩ hij

theorem slicesIndexFunc_range {α : Type} {s : List α} {p : α → Bool} {x : α}
    (h : s.find? p = some x) :
    0 ≤ slicesIndexFunc s p ∧ slicesIndexFunc s p < (s.length : Int) := by
  have hlt : List.findIdx p s < s.length :=
    List.findIdx_lt_length_of_exists ⟨x, List.mem_of_find?_eq_some h, List.find?_some h⟩
  unfold slicesIndexFunc
  rw [if_pos hlt]
  omega

theorem getSwipeProfiles_ok_length {f : Faults} {st : Store} {u t : Int}
    {rows : List SwipeDetails} (h : getSwipeProfiles f st u t = .ok rows) :
    2 ≤ rows.length ∧ f.query = Option.none := by
  rcases getSwipeProfiles_cases f st u t with ⟨e, he, _⟩ | ⟨hq, _, hlen, hok⟩
  · rw [he] at h; cases h
  · rw [hok] at h
    injection h with h
    rw [← h]
    exact ⟨hlen, hq⟩

/-! ## `Swipe` does not index out of range -/

theorem resolved_of_two_rows {st : Store} {u t : Int}
    (hnd : (st.profiles.map (fun p => p.Id)).Nodup)
    (hlen : 2 ≤ (st.profiles.filter (fun p => p.Id == u || p.Id == t)).length) :
    (∃ pu, st.lookup u = some pu) ∧ (∃ pt, st.lookup t = some pt) ∧ u ≠ t := by
  refine ⟨?_, ?_, ?_⟩
  · cases hu : st.lookup u with
    | none =>
      have := filter_pair_length_le_one st u t hnd (Or.inl hu)
      omega
    | some pu => exact ⟨pu, rfl⟩
  · cases ht : st.lookup t with
    | none =>
      have := filter_pair_length_le_one st u t hnd (Or.inr (Or.inl ht))
      omega
    | some pt => exact ⟨pt, rfl⟩
  · intro h
    have := filter_pair_length_le_one st u t hnd (Or.inr (Or.inr h))
    omega

/-- C17. When profile ids are unique and `getSwipeProfiles` succeeds (the query returns the rows
whose id is `userId` or `swipedUserId`, at least two of them), both `slices.IndexFunc` lookups
return an index that is not `-1` and is below the number of rows, so both index expressions
yield a row; in the match branch the index of the target in the swiper's `SwipedYesBy` is within
bounds and `slices.Delete` does not panic; and `Swipe` returns without a panic. -/
theorem Swipe_indexes_in_range (clearTail : Bool) (f : Faults) (st : Store) (u t : Int)
    (liked : Bool) (rows : List SwipeDetails)
    (hnd : (st.profiles.map (fun p => p.Id)).Nodup)
    (hg : getSwipeProfiles f st u t = .ok rows) :
    (0 ≤ slicesIndexFunc rows (fun p => p.Id == u) ∧
      slicesIndexFunc rows (fun p => p.Id == u) < (rows.length : Int)) ∧
    (0 ≤ slicesIndexFunc rows (fun p => p.Id == t) ∧
      slicesIndexFunc rows (fun p => p.Id == t) < (rows.length : Int)) ∧
    (∃ swiperProfile swipedProfile,
      goIndex rows (slicesIndexFunc rows (fun p => p.Id == u)) = some swiperProfile ∧
      goIndex rows (slicesIndexFunc rows (fun p => p.Id == t)) = some swipedProfile ∧
      ((liked && slicesContains swiperProfile.SwipedYesBy t) = true →
        0 ≤ slicesIndex swiperProfile.SwipedYesBy t ∧
        slicesIndex swiperProfile.SwipedYesBy t + 1
          ≤ (swiperProfile.SwipedYesBy.length : Int) ∧
        (slicesDelete clearTail swiperProfile.SwipedYesBy
          (slicesIndex swiperProfile.SwipedYesBy t)
          (slicesIndex swiperProfile.SwipedYesBy t + 1)).isSome = true)) ∧
    (∃ o, Swipe clearTail f st u t liked = some o) := by
  obtain ⟨hlen, _⟩ := getSwipeProfiles_ok_length hg
  have hrows := getSwipeProfiles_ok hg
  subst hrows
  obtain ⟨⟨pu, hu⟩, ⟨pt, ht⟩, hne⟩ := resolved_of_two_rows hnd hlen
  have hu' : (st.profiles.filter (fun p => p.Id == u || p.Id == t)).find?
      (fun p => p.Id == u) = some pu := by
    rw [find?_filter_left]; exact hu
  have ht' : (st.profiles.filter (fun p => p.Id == u || p.Id == t)).find?
      (fun p => p.Id == t) = some pt := by
    rw [find?_filter_right]; exact ht
  refine ⟨slicesIndexFunc_range hu', slicesIndexFunc_range ht', ⟨pu, pt, ?_, ?_, ?_⟩, ?_⟩
  · rw [goIndex_slicesIndexFunc]; exact hu'
  · rw [goIndex_slicesIndexFunc]; exact ht'
  · intro hm
    simp only [Bool.and_eq_true] at hm
    have hmem : t ∈ pu.SwipedYesBy := (slicesContains_iff _ _).mp hm.2
    have hfind : pu.SwipedYesBy.find? (fun x => t == x) = some t := by
      cases hf : pu.SwipedYesBy.find? (fun x => t == x) with
      | none =>
        rw [List.find?_eq_none] at hf
        have := hf t hmem
        simp at this
      | some y =>
        have := List.find?_some hf
        simp only [beq_iff_eq] at this
        rw [this]
    have hr := slicesIndexFunc_range hfind
    obtain ⟨kept, stored, hd, _⟩ := slicesDelete_index clearTail pu.SwipedYesBy t hmem
    refine ⟨hr.1, ?_, ?_⟩
    · unfold slicesIndex; omega
    · rw [hd]; rfl
  · rcases Swipe_resolved_faults clearTail f st u t liked pu pt hu ht hne with ⟨e, hre⟩ | hre
    · exact ⟨_, hre⟩
    · rw [hre]
      obtain ⟨o, ho, _⟩ := swipeWith_cases clearTail f st u t liked pu pt
      exact ⟨o, ho⟩

/-- Witness of `Swipe_indexes_in_range`: profile 1, liked earlier by profile 2, likes 2. -/
theorem Swipe_indexes_in_range_witness :
    (0 ≤ slicesIndexFunc [(⟨1, [], [2]⟩ : SwipeDetails), ⟨2, [1], []⟩] (fun p => p.Id == 1) ∧
      slicesIndexFunc [(⟨1, [], [2]⟩ : SwipeDetails), ⟨2, [1], []⟩] (fun p => p.Id == 1)
        < (([(⟨1, [], [2]⟩ : SwipeDetails), ⟨2, [1], []⟩]).length : Int)) ∧
    (0 ≤ slicesIndexFunc [(⟨1, [], [2]⟩ : SwipeDetails), ⟨2, [1], []⟩] (fun p => p.Id == 2) ∧
      slicesIndexFunc [(⟨1, [], [2]⟩ : SwipeDetails), ⟨2, [1], []⟩] (fun p => p.Id == 2)
        < (([(⟨1, [], [2]⟩ : SwipeDetails), ⟨2, [1], []⟩]).length : Int)) ∧
    (∃ swiperProfile swipedProfile,
      goIndex [(⟨1, [], [2]⟩ : SwipeDetails), ⟨2, [1], []⟩]
        (slicesIndexFunc [(⟨1, [], [2]⟩ : SwipeDetails), ⟨2, [1], []⟩] (fun p => p.Id == 1))
          = some swiperProfile ∧
      goIndex [(⟨1, [], [2]⟩ : SwipeDetails), ⟨2, [1], []⟩]
        (slicesIndexFunc [(⟨1, [], [2]⟩ : SwipeDetails), ⟨2, [1], []⟩] (fun p => p.Id == 2))
          = some swipedProfile ∧
      ((true && slicesContains swiperProfile.SwipedYesBy 2) = true →
        0 ≤ slicesIndex swiperProfile.SwipedYesBy 2 ∧
        slicesIndex swiperProfile.SwipedYesBy 2 + 1
          ≤ (swiperProfile.SwipedYesBy.length : Int) ∧
        (slicesDelete true swiperProfile.SwipedYesBy
          (slicesIndex swiperProfile.SwipedYesBy 2)
          (slicesIndex swiperProfile.SwipedYesBy 2 + 1)).isSome = true)) ∧
    (∃ o, Swipe true Faults.none ⟨[⟨1, [], [2]⟩, ⟨2, [1], []⟩], [], 0⟩ 1 2 true = some o) :=
  Swipe_indexes_in_range true Faults.none ⟨[⟨1, [], [2]⟩, ⟨2, [1], []⟩], [], 0⟩ 1 2 true
    [⟨1, [], [2]⟩, ⟨2, [1], []⟩] (by decide) rfl

/-! ## Consumption of a pending like by a match (`slices.Delete` zeroing the slot) -/

theorem slicesDelete_clear {s : List Int} {v : Int} (hv : v ∈ s) {kept stored : List Int}
    (hd : slicesDelete true s (slicesIndex s v) (slicesIndex s v + 1) = some (kept, stored)) :
    stored = kept ++ [0] ∧ s.Perm (v :: kept) := by
  have hlt : List.findIdx (fun x => v == x) s < s.length :=
    List.findIdx_lt_length_of_exists ⟨v, hv, by simp⟩
  have hidx : slicesIndex s v = (List.findIdx (fun x => v == x) s : Int) := by
    simp [slicesIndex, slicesIndexFunc, hlt]
  rw [hidx] at hd
  unfold slicesDelete at hd
  have hb : (0 : Int) ≤ (List.findIdx (fun x => v == x) s : Int) ∧
      (List.findIdx (fun x => v == x) s : Int) ≤ (List.findIdx (fun x => v == x) s : Int) + 1 ∧
      (List.findIdx (fun x => v == x) s : Int) + 1 ≤ (s.length : Int) := by omega
  rw [if_pos hb] at hd
  have h1 : ((List.findIdx (fun x => v == x) s : Int)).toNat
      = List.findIdx (fun x => v == x) s := by omega
  have h2 : ((List.findIdx (fun x => v == x) s : Int) + 1).toNat
      = List.findIdx (fun x => v == x) s + 1 := by omega
  simp only [h1, h2, if_true, Option.some.injEq, Prod.mk.injEq] at hd
  obtain ⟨hk, hs⟩ := hd
  have hrep : List.replicate (List.findIdx (fun x => v == x) s + 1
      - List.findIdx (fun x => v == x) s) (0 : Int) = [0] := by
    have : List.findIdx (fun x => v == x) s + 1 - List.findIdx (fun x => v == x) s = 1 := by
      omega
    rw [this]; rfl
  rw [hrep] at hs
  constructor
  · rw [← hs, hk]
  · have hget : s[List.findIdx (fun x => v == x) s] = v := by
      have := List.findIdx_getElem (w := hlt)
      simp only [beq_iff_eq] at this
      exact this.symm
    have hsplit : s = s.take (List.findIdx (fun x => v == x) s)
        ++ v :: s.drop (List.findIdx (fun x => v == x) s + 1) := by
      conv_lhs => rw [← List.take_append_drop (List.findIdx (fun x => v == x) s) s]
      congr 1
      rw [List.drop_eq_getElem_cons hlt, hget]
    rw [← hk]
    conv_lhs => rw [hsplit]
    exact List.perm_middle


theorem swipeWith_cases_delete (clearTail : Bool) (f : Faults) (st : Store) (u t : Int)
    (liked : Bool) (pu pt : SwipeDetails) :
    ∃ o, swipeWith clearTail f st u t liked pu pt = some o ∧
      ((o.store.profiles = st.profiles ∧ o.store.matchRows = st.matchRows) ∨
        (liked = true ∧ t ∈ pu.SwipedYesBy ∧ o.err = Option.none ∧ o.matched = true ∧
          ∃ kept stored,
            slicesDelete clearTail pu.SwipedYesBy (slicesIndex pu.SwipedYesBy t)
              (slicesIndex pu.SwipedYesBy t + 1) = some (kept, stored) ∧
            o.store.profiles
              = (Statement.updateLedger stored (pu.SwipedOn ++ [t]) u).apply st.profiles ∧
            o.store.matchRows = st.matchRows ++ [⟨o.matchId, u, t⟩]) ∨
        (liked = true ∧ t ∉ pu.SwipedYesBy ∧ o.err = Option.none ∧ o.matched = false ∧
          o.store.profiles = (Statement.updateSwipedYesBy (pt.SwipedYesBy ++ [u]) t).apply
              ((Statement.updateSwipedOn (pu.SwipedOn ++ [t]) u).apply st.profiles) ∧
          o.store.matchRows = st.matchRows) ∨
        (liked = false ∧ o.err = Option.none ∧ o.matched = false ∧
          o.store.profiles
            = (Statement.updateSwipedOn (pu.SwipedOn ++ [t]) u).apply st.profiles ∧
          o.store.matchRows = st.matchRows)) := by
  unfold swipeWith
  by_cases hb : f.begin.isSome = true
  · simp [hb]
  · simp only [hb, Bool.false_eq_true, if_false]
    cases liked with
    | false =>
      simp only [Bool.false_and, Bool.false_eq_true, if_false]
      refine ⟨_, rfl, ?_⟩
      cases hus : f.updateSwiper <;> cases hcm : f.commit
      · right; right; right
        simp [Tx.ExecEx, Tx.CommitEx]
      all_goals left; simp [Tx.ExecEx, Tx.CommitEx]
    | true =>
      by_cases hm : t ∈ pu.SwipedYesBy
      · have hc : slicesContains pu.SwipedYesBy t = true := (slicesContains_iff _ _).mpr hm
        obtain ⟨kept, stored, hd, _⟩ := slicesDelete_index clearTail pu.SwipedYesBy t hm
        simp only [hc, Bool.and_self, if_true, hd]
        cases hus : f.updateSwiper <;> cases hin : f.insertMatch <;> cases hcm : f.commit <;>
          simp only [Tx.ExecEx, Tx.insertMatch, Option.isSome_none, Option.isSome_some,
            Bool.or_self, Bool.false_eq_true, if_false, if_true, Bool.or_true, Bool.or_false,
            Bool.true_or] <;>
          refine ⟨_, rfl, ?_⟩
        · right; left
          exact ⟨trivial, hm, rfl, rfl, kept, stored, rfl, by simp [Tx.CommitEx],
            by simp [Tx.CommitEx]⟩
        all_goals left; simp [Tx.CommitEx]
      · have hc : slicesContains pu.SwipedYesBy t = false := by
          rw [← Bool.not_eq_true, slicesContains_iff]; exact hm
        simp only [hc, Bool.and_false, Bool.false_eq_true, if_false, if_true]
        refine ⟨_, rfl, ?_⟩
        cases hus : f.updateSwiper <;> cases hud : f.updateSwiped <;> cases hcm : f.commit
        · right; right; left
          simp [Tx.ExecEx, Tx.CommitEx, hm]
        all_goals left; simp [Tx.ExecEx, Tx.CommitEx]


theorem ConsumedInv_step {done : List Call} {st : Store} (c : Call) {o : SwipeOutcome}
    (hinv : LedgerInv true done st) (hc : ConsumedInv st)
    (hfresh : ¬ swipedIn done c.userId c.swipedUserId)
    (h : Swipe true c.faults st c.userId c.swipedUserId c.liked = some o)
    (he : o.err = Option.none) :
    ConsumedInv o.store := by
  obtain ⟨pu, pt, hu, ht, hw⟩ := Swipe_noerr_resolved h he
  obtain ⟨hui, hum⟩ := lookup_some_id hu
  obtain ⟨hti, htm⟩ := lookup_some_id ht
  obtain ⟨o', ho', hcases⟩ :=
    swipeWith_cases_delete true c.faults st c.userId c.swipedUserId c.liked pu pt
  rw [hw] at ho'
  injection ho' with ho'
  subst ho'
  have hnv : ∀ x : Int, x ≠ 0 → ¬ isVacated true x := fun x hx hv => hx hv.2
  rcases hcases with ⟨hp, hm⟩ | ⟨_, hin, _, _, kept, stored, hd, hp, hm⟩ |
    ⟨_, _, _, _, hp, hm⟩ | ⟨_, _, _, hp, hm⟩
  · -- nothing committed
    refine ⟨?_, ?_⟩
    · intro r hr x hx
      rw [hp] at hr
      exact hc.yesBy_once r hr x hx
    · intro r hr x hxr hx m hmem
      rw [hp] at hr
      rw [hm] at hmem
      exact hc.yesBy_unreciprocated r hr x hxr hx m hmem
  · -- match
    obtain ⟨hstored, hperm⟩ := slicesDelete_clear hin hd
    have hcount : ∀ x : Int, x ≠ 0 → stored.count x = kept.count x := by
      intro x hx
      rw [hstored, List.count_append]
      have : List.count x [(0 : Int)] = 0 := by
        rw [List.count_eq_zero]
        simp only [List.mem_singleton]
        exact hx
      omega
    have hpc : ∀ x : Int, pu.SwipedYesBy.count x
        = (if c.swipedUserId = x then 1 else 0) + kept.count x := by
      intro x
      rw [hperm.count_eq, List.count_cons]
      by_cases hxt : c.swipedUserId = x
      · simp [hxt]; omega
      · simp [hxt]
    refine ⟨?_, ?_⟩
    · intro r' hr' x hx
      rw [hp] at hr'
      obtain ⟨r, hr, hrr⟩ := mem_apply hr'
      subst hrr
      by_cases hid : r.Id = c.userId
      · simp only [Statement.onRow, hid, if_true]
        rw [hcount x hx]
        have h1 := hc.yesBy_once pu hum x hx
        have h2 := hpc x
        omega
      · simp only [Statement.onRow, hid, if_false]
        exact hc.yesBy_once r hr x hx
    · intro r' hr' x hxr hx m hmem
      rw [hp] at hr'
      obtain ⟨r, hr, hrr⟩ := mem_apply hr'
      subst hrr
      rw [hm, List.mem_append, List.mem_singleton] at hmem
      by_cases hid : r.Id = c.userId
      · simp only [Statement.onRow, hid, if_true] at hxr ⊢
        have hxk : x ∈ kept := by
          have h0 := List.count_pos_iff.mpr hxr
          rw [hcount x hx] at h0
          exact List.count_pos_iff.mp h0
        have hxpu : x ∈ pu.SwipedYesBy := by
          rw [hperm.mem_iff]
          exact List.mem_cons_of_mem _ hxk
        rcases hmem with hmem | hmem
        · intro hcontra
          exact hc.yesBy_unreciprocated pu hum x hxpu hx m hmem
            ⟨by rw [hui]; exact hcontra.1, hcontra.2⟩
        · subst hmem
          rintro ⟨_, h2⟩
          simp only at h2
          have h1 := hc.yesBy_once pu hum x hx
          have h3 := hpc x
          rw [if_pos h2] at h3
          have h4 := List.count_pos_iff.mpr hxk
          omega
      · simp only [Statement.onRow, hid, if_false] at hxr ⊢
        rcases hmem with hmem | hmem
        · exact hc.yesBy_unreciprocated r hr x hxr hx m hmem
        · subst hmem
          rintro ⟨h1, _⟩
          exact hid h1.symm
  · -- pending like
    refine ⟨?_, ?_⟩
    · intro r' hr' x hx
      rw [hp] at hr'
      obtain ⟨r1, hr1, hrr1⟩ := mem_apply hr'
      obtain ⟨r, hr, hrr⟩ := mem_apply hr1
      have hy1 : r1.SwipedYesBy = r.SwipedYesBy := by
        rw [← hrr]; simp only [Statement.onRow]; split <;> rfl
      subst hrr1
      by_cases hid : r1.Id = c.swipedUserId
      · simp only [Statement.onRow, hid, if_true]
        rw [List.count_append]
        have h1 := hc.yesBy_once pt htm x hx
        by_cases hxu : c.userId = x
        · have hnot : x ∉ pt.SwipedYesBy := by
            intro hmem
            apply hfresh
            have := swipedIn_of_likedIn (hinv.yesBy_liked pt htm x hmem (hnv x hx))
            rw [hti, ← hxu] at this
            exact this
          rw [List.count_eq_zero_of_not_mem hnot]
          have : List.count x [c.userId] ≤ 1 := by
            have := List.count_le_length x [c.userId]
            simpa using this
          omega
        · have : List.count x [c.userId] = 0 := by
            rw [List.count_eq_zero]
            simp only [List.mem_singleton]
            exact fun h => hxu h.symm
          omega
      · simp only [Statement.onRow, hid, if_false]
        rw [hy1]
        exact hc.yesBy_once r hr x hx
    · intro r' hr' x hxr hx m hmem
      rw [hp] at hr'
      rw [hm] at hmem
      obtain ⟨r1, hr1, hrr1⟩ := mem_apply hr'
      obtain ⟨r, hr, hrr⟩ := mem_apply hr1
      have hid1 : r1.Id = r.Id := by rw [← hrr]; exact onRow_Id _ _
      have hy1 : r1.SwipedYesBy = r.SwipedYesBy := by
        rw [← hrr]; simp only [Statement.onRow]; split <;> rfl
      subst hrr1
      rw [onRow_Id]
      by_cases hid : r1.Id = c.swipedUserId
      · simp only [Statement.onRow, hid, if_true, List.mem_append,
          List.mem_singleton] at hxr
        rcases hxr with hxr | hxr
        · intro hcontra
          exact hc.yesBy_unreciprocated pt htm x hxr hx m hmem
            ⟨by rw [hti, ← hid]; exact hcontra.1, hcontra.2⟩
        · rintro ⟨h1, h2⟩
          apply hfresh
          have := hinv.match_reciprocal m hmem (by rw [h2]; exact hnv x hx)
          rw [h1, h2, hid, hxr] at this
          exact this
      · simp only [Statement.onRow, hid, if_false] at hxr
        rw [hy1] at hxr
        rw [hid1]
        exact hc.yesBy_unreciprocated r hr x hxr hx m hmem
  · -- pass
    have hy : ∀ r : SwipeDetails,
        ((Statement.updateSwipedOn (pu.SwipedOn ++ [c.swipedUserId]) c.userId).onRow
          r).SwipedYesBy = r.SwipedYesBy := by
      intro r; simp only [Statement.onRow]; split <;> rfl
    refine ⟨?_, ?_⟩
    · intro r' hr' x hx
      rw [hp] at hr'
      obtain ⟨r, hr, hrr⟩ := mem_apply hr'
      subst hrr
      rw [hy]
      exact hc.yesBy_once r hr x hx
    · intro r' hr' x hxr hx m hmem
      rw [hp] at hr'
      rw [hm] at hmem
      obtain ⟨r, hr, hrr⟩ := mem_apply hr'
      subst hrr
      rw [hy] at hxr
      rw [onRow_Id]
      exact hc.yesBy_unreciprocated r hr x hxr hx m hmem


theorem ConsumedInv_fresh (st : Store) (h : st.isFresh) : ConsumedInv st := by
  obtain ⟨hl, hm⟩ := h
  refine ⟨?_, ?_⟩
  · intro r hr x _; rw [(hl r hr).2]; simp
  · intro r hr x hx; rw [(hl r hr).2] at hx; simp at hx

theorem ConsumedInv_run :
    ∀ (calls done : List Call) (st st' : Store), LedgerInv true done st → ConsumedInv st →
      noRepeat (done ++ calls) → runSwipes true st calls = some st' → ConsumedInv st' := by
  intro calls
  induction calls with
  | nil =>
    intro done st st' _ hc _ hrun
    simp only [runSwipes, Option.some.injEq] at hrun
    subst hrun
    exact hc
  | cons c cs ih =>
    intro done st st' hinv hc hnr hrun
    simp only [runSwipes] at hrun
    cases hs : Swipe true c.faults st c.userId c.swipedUserId c.liked with
    | none => rw [hs] at hrun; cases hrun
    | some o =>
      rw [hs] at hrun
      simp only at hrun
      by_cases he : o.err = Option.none
      · rw [if_pos he] at hrun
        have hfresh : ¬ swipedIn done c.userId c.swipedUserId := by
          rintro ⟨d, hd, h1, h2⟩
          unfold noRepeat at hnr
          rw [List.map_append, List.nodup_append] at hnr
          have hd' : d.pair ∈ done.map Call.pair := List.mem_map_of_mem Call.pair hd
          have hc' : d.pair ∈ (c :: cs).map Call.pair := by
            have hdc : d.pair = c.pair := by simp [Call.pair, h1, h2]
            rw [hdc]
            exact List.mem_map_of_mem Call.pair (List.mem_cons_self c cs)
          exact hnr.2.2 hd' hc'
        have hstep := LedgerInv_step c hinv hfresh hs he
        have hcstep := ConsumedInv_step c hinv hc hfresh hs he
        have hnr' : noRepeat ((done ++ [c]) ++ cs) := by
          simpa using hnr
        exact ih (done ++ [c]) o.store st' hstep hcstep hnr' hrun
      · rw [if_neg he] at hrun
        cases hrun

/-- C8 (amended). With `slices.Delete` zeroing the slot it vacates (Go 1.22 and later, which the
repository needs): in every state reached from a store with empty ledgers and no match by
successful `Swipe` calls made one after the other, for every profile row and every non-zero id
`x` in its `SwipedYesBy`, `x` has performed a like swipe on that profile; and when no ordered
pair (swiper, target) was swiped more than once, no row of `matches` exists for the unordered
pair of `x` and that profile, so that once a match of a pair is recorded, neither id of the
pair (if non-zero) is a member of the other's `SwipedYesBy`. -/
theorem runSwipes_yesBy_liked (st0 : Store) (h0 : st0.isFresh) (calls : List Call)
    (st : Store) (hrun : runSwipes true st0 calls = some st) :
    (∀ r ∈ st.profiles, ∀ x ∈ r.SwipedYesBy, x ≠ 0 → likedIn calls x r.Id) ∧
    (noRepeat calls →
      ∀ r ∈ st.profiles, ∀ x ∈ r.SwipedYesBy, x ≠ 0 → st.matchCount x r.Id = 0) ∧
    (noRepeat calls →
      ∀ m ∈ st.matchRows, ∀ r ∈ st.profiles,
        (r.Id = m.user1Id → m.user2Id ≠ 0 → m.user2Id ∉ r.SwipedYesBy) ∧
        (r.Id = m.user2Id → m.user1Id ≠ 0 → m.user1Id ∉ r.SwipedYesBy)) := by
  have hnv : ∀ x : Int, x ≠ 0 → ¬ isVacated true x := fun x hx hv => hx hv.2
  refine ⟨?_, ?_, ?_⟩
  · intro r hr x hx hx0
    have h := yesBy_liked_run true calls [] st0 st
      (LedgerInv_fresh true st0 h0).yesBy_liked hrun r hr x hx (hnv x hx0)
    simpa using h
  · intro hnr r hr x hx hx0
    have hl := LedgerInv_run true calls [] st0 st (LedgerInv_fresh true st0 h0)
      (by simpa using hnr) hrun
    have hc := ConsumedInv_run calls [] st0 st (LedgerInv_fresh true st0 h0)
      (ConsumedInv_fresh st0 h0) (by simpa using hnr) hrun
    apply matchCount_eq_zero
    intro m hm
    rw [← Bool.not_eq_true]
    intro hp
    simp only [MatchRow.isPair, Bool.or_eq_true, Bool.and_eq_true, beq_iff_eq] at hp
    rcases hp with hp | hp
    · exact hl.yesBy_unmatched r hr x hx (hnv x hx0) m hm hp
    · exact hc.yesBy_unreciprocated r hr x hx hx0 m hm hp
  · intro hnr m hm r hr
    have hl := LedgerInv_run true calls [] st0 st (LedgerInv_fresh true st0 h0)
      (by simpa using hnr) hrun
    have hc := ConsumedInv_run calls [] st0 st (LedgerInv_fresh true st0 h0)
      (ConsumedInv_fresh st0 h0) (by simpa using hnr) hrun
    constructor
    · intro hid h0' hmem
      exact hc.yesBy_unreciprocated r hr _ hmem h0' m hm ⟨hid.symm, rfl⟩
    · intro hid h0' hmem
      exact hl.yesBy_unmatched r hr _ hmem (hnv _ h0') m hm ⟨rfl, hid.symm⟩

/-- Witness of `runSwipes_yesBy_liked`: 1 likes 2, 3 likes 2, then 2 likes 1 back. Afterwards
id 3 is still pending in the `SwipedYesBy` of 2, and id 1 has left it. -/
theorem runSwipes_yesBy_liked_witness :
    runSwipes true ⟨[⟨1, [], []⟩, ⟨2, [], []⟩, ⟨3, [], []⟩], [], 0⟩
        [⟨Faults.none, 1, 2, true⟩, ⟨Faults.none, 3, 2, true⟩, ⟨Faults.none, 2, 1, true⟩]
      = some ⟨[⟨1, [2], []⟩, ⟨2, [1], [3, 0]⟩, ⟨3, [2], []⟩], [⟨1, 2, 1⟩], 1⟩ ∧
    noRepeat [⟨Faults.none, 1, 2, true⟩, ⟨Faults.none, 3, 2, true⟩,
      ⟨Faults.none, 2, 1, true⟩] ∧
    ((∀ r ∈ [(⟨1, [2], []⟩ : SwipeDetails), ⟨2, [1], [3, 0]⟩, ⟨3, [2], []⟩],
        ∀ x ∈ r.SwipedYesBy, x ≠ 0 →
          likedIn [⟨Faults.none, 1, 2, true⟩, ⟨Faults.none, 3, 2, true⟩,
            ⟨Faults.none, 2, 1, true⟩] x r.Id) ∧
      (noRepeat [⟨Faults.none, 1, 2, true⟩, ⟨Faults.none, 3, 2, true⟩,
          ⟨Faults.none, 2, 1, true⟩] →
        ∀ r ∈ [(⟨1, [2], []⟩ : SwipeDetails), ⟨2, [1], [3, 0]⟩, ⟨3, [2], []⟩],
          ∀ x ∈ r.SwipedYesBy, x ≠ 0 →
            Store.matchCount
              ⟨[⟨1, [2], []⟩, ⟨2, [1], [3, 0]⟩, ⟨3, [2], []⟩], [⟨1, 2, 1⟩], 1⟩ x r.Id = 0) ∧
      (noRepeat [⟨Faults.none, 1, 2, true⟩, ⟨Faults.none, 3, 2, true⟩,
          ⟨Faults.none, 2, 1, true⟩] →
        ∀ m ∈ [(⟨1, 2, 1⟩ : MatchRow)],
          ∀ r ∈ [(⟨1, [2], []⟩ : SwipeDetails), ⟨2, [1], [3, 0]⟩, ⟨3, [2], []⟩],
            (r.Id = m.user1Id → m.user2Id ≠ 0 → m.user2Id ∉ r.SwipedYesBy) ∧
            (r.Id = m.user2Id → m.user1Id ≠ 0 → m.user1Id ∉ r.SwipedYesBy))) :=
  ⟨by decide, by unfold noRepeat; decide,
    runSwipes_yesBy_liked ⟨[⟨1, [], []⟩, ⟨2, [], []⟩, ⟨3, [], []⟩], [], 0⟩
      (by simp [Store.isFresh])
      [⟨Faults.none, 1, 2, true⟩, ⟨Faults.none, 3, 2, true⟩, ⟨Faults.none, 2, 1, true⟩]
      ⟨[⟨1, [2], []⟩, ⟨2, [1], [3, 0]⟩, ⟨3, [2], []⟩], [⟨1, 2, 1⟩], 1⟩ (by decide)⟩

end Muzz
